import Mathlib

/-!
# lua-ev: handles, loops, watcher lifecycle, dispatch and the extension slot

A shallow embedding of the watcher/loop bridge of lua-ev
(loop_lua_ev.c, watcher_lua_ev.c, obj_lua_ev.c, lua_ev.c) over a small model
of the Lua 5.1 C API and of the libev calls the bridge makes.

The Lua stack of the running C frame is a list whose head is the top of the
stack, so index -1 is the head and index 1 is the last element.
-/

set_option linter.unusedVariables false

namespace LuaEv

/-! ## Host values and tables -/

/-- Reference to a Lua table: the registry pseudo-table or a heap table. -/
inductive TabRef
  | registry
  | heap (t : Nat)
  deriving DecidableEq, Repr

/-- Lua values as the C API sees them. Collectable objects are named by address. -/
inductive TValue
  | nil
  | boolean (b : Bool)
  | number (n : Int)
  | str (s : String)
  | lightuserdata (p : Nat)
  | table (t : TabRef)
  | func (f : Nat)
  | userdata (u : Nat)
  deriving DecidableEq, Repr

/-- Failure modes of an API call: a raised Lua error, or a violated api_check
(undefined behaviour in C). -/
inductive LuaError
  | typerror (narg : Int) (tname : String)
  | error (msg : String)
  | apicheck
  deriving DecidableEq, Repr

/-- Contents of a Lua table: an association list; a missing key reads as nil. -/
abbrev Table := List (TValue × TValue)

/-- Raw read of a table (lua_rawget). -/
def tget : Table → TValue → TValue
  | [], _ => TValue.nil
  | (k', v) :: t, k => if k' = k then v else tget t k

/-- Removal of a key. -/
def terase : Table → TValue → Table
  | [], _ => []
  | (k', v) :: t, k => if k' = k then terase t k else (k', v) :: terase t k

/-- Raw write of a table (lua_rawset): storing nil removes the entry. -/
def tset (t : Table) (k v : TValue) : Table :=
  if v = TValue.nil then terase t k else (k, v) :: terase t k

/-! ## State -/

/-- The struct lua_ev_watcher_data that prefixes every watcher. -/
structure WatcherData where
  watcher_ref : Int
  flags : Nat
  deriving DecidableEq, Repr

/-- Host state (stack of the running frame, registry, heap tables, the
environment table and metatable of each userdata, the environment of each
function and of the running C function, the allocation counters, the header
of each watcher) together with the native state the bridge touches (the
activecnt of each ev_loop, the active flag of each native watcher, the text
written to stderr). The further fields are the upvalues of the running C
closure, the pointer each loop handle stores in its block (cell), and of the
native state the priority of each watcher and, for each ev_loop, the pending
break request, the iteration count and the depth. -/
structure State where
  stack : List TValue
  registry : Table
  tables : Nat → Table
  udEnv : Nat → Nat
  udMeta : Nat → TValue
  fnEnv : Nat → Nat
  curEnv : Nat
  nextUd : Nat
  nextTab : Nat
  wdata : Nat → WatcherData
  activecnt : Nat → Int
  active : Nat → Bool
  stderr : List String
  upvalues : List TValue := []
  cell : Nat → Nat := fun _ => 0
  priority : Nat → Int := fun _ => 0
  loop_done : Nat → Int := fun _ => 0
  loop_count : Nat → Int := fun _ => 0
  loop_depth : Nat → Int := fun _ => 0

def LUA_REGISTRYINDEX : Int := -10000
def LUA_GLOBALSINDEX : Int := -10002
def lua_upvalueindex (i : Int) : Int := LUA_GLOBALSINDEX - i
def LUA_NOREF : Int := -2
def LUA_REFNIL : Int := -1

def WATCHER_FLAG_IS_DAEMON : Nat := 1
def WATCHER_FLAG_HAS_SHADOW : Nat := 2
def WATCHER_FN : Int := 1
def WATCHER_LOOP : Int := 2
def WATCHER_SHADOW : Int := 3
def OBJ_TYPE_MAGIC_IDX : Int := 1
def WATCHER_TYPE_MAGIC_IDX : Int := OBJ_TYPE_MAGIC_IDX + 1

/-- The C expression f & ~m on the 32-bit flags word. -/
def clearBits (f m : Nat) : Nat := f &&& (4294967295 - m)

def getTable (s : State) : TabRef → Table
  | TabRef.registry => s.registry
  | TabRef.heap t => s.tables t

def setTable (s : State) (r : TabRef) (c : Table) : State :=
  match r with
  | TabRef.registry => { s with registry := c }
  | TabRef.heap t => { s with tables := Function.update s.tables t c }

/-! ## The slice of the Lua C API used by the bridge -/

/-- Value at a positive index of a frame: counted from the bottom, nil beyond
the top. -/
def stackAt (stk : List TValue) (idx : Int) : TValue :=
  (stk.reverse[(idx - 1).toNat]?).getD TValue.nil

/-- Resolution of a stack index (lapi.c index2adr): a positive index counts
from the bottom of the frame and reads nil beyond the top; a negative index
counts from the top and must be within the frame; an index below
LUA_GLOBALSINDEX names an upvalue of the running C closure and reads nil
beyond the last one. -/
def index2adr (s : State) (idx : Int) : Except LuaError TValue :=
  if 0 < idx then
    Except.ok (stackAt s.stack idx)
  else if idx = LUA_REGISTRYINDEX then
    Except.ok (TValue.table TabRef.registry)
  else if idx < 0 ∧ (-idx).toNat ≤ s.stack.length then
    Except.ok ((s.stack[(-idx).toNat - 1]?).getD TValue.nil)
  else if idx < LUA_GLOBALSINDEX then
    Except.ok ((s.upvalues[(LUA_GLOBALSINDEX - idx).toNat - 1]?).getD TValue.nil)
  else
    Except.error LuaError.apicheck

def push (s : State) (v : TValue) : State := { s with stack := v :: s.stack }

def lua_pushvalue (s : State) (idx : Int) : Except LuaError State := do
  let v ← index2adr s idx
  pure (push s v)

def lua_pushnil (s : State) : State := push s TValue.nil

def lua_pushinteger (s : State) (n : Int) : State := push s (TValue.number n)

def lua_pop (s : State) (n : Nat) : Except LuaError State :=
  if n ≤ s.stack.length then Except.ok { s with stack := s.stack.drop n }
  else Except.error LuaError.apicheck

/-- The lua_getfenv call: pushes the environment table of a function or
userdata, nil for any other value. -/
def lua_getfenv (s : State) (idx : Int) : Except LuaError State := do
  let o ← index2adr s idx
  match o with
  | TValue.func f => pure (push s (TValue.table (TabRef.heap (s.fnEnv f))))
  | TValue.userdata u => pure (push s (TValue.table (TabRef.heap (s.udEnv u))))
  | _ => pure (push s TValue.nil)

/-- The lua_rawgeti call: pushes t[n] where t is the table at idx. -/
def lua_rawgeti (s : State) (idx : Int) (n : Int) : Except LuaError State := do
  let o ← index2adr s idx
  match o with
  | TValue.table r => pure (push s (tget (getTable s r) (TValue.number n)))
  | _ => throw LuaError.apicheck

/-- The lua_rawseti call: t[n] = v where t is the table at idx and v the
value on top, which is popped. -/
def lua_rawseti (s : State) (idx : Int) (n : Int) : Except LuaError State := do
  let o ← index2adr s idx
  match o, s.stack with
  | TValue.table r, v :: rest =>
    pure (setTable { s with stack := rest } r (tset (getTable s r) (TValue.number n) v))
  | _, _ => throw LuaError.apicheck

/-- Largest integer key of a table plus one, at least 1: an integer key that
is not in use. -/
def freshRef : Table → Int
  | [] => 1
  | (TValue.number n, _) :: t => max (n + 1) (freshRef t)
  | _ :: t => freshRef t

/-- The luaL_ref call, after the Lua reference manual: pops the value on
top; nil yields LUA_REFNIL, any other value is stored in the table at idx
under an integer key not in use, which is returned. -/
def luaL_ref (s : State) (idx : Int) : Except LuaError (Int × State) := do
  let o ← index2adr s idx
  match o, s.stack with
  | TValue.table r, v :: rest =>
    if v = TValue.nil then
      pure (LUA_REFNIL, { s with stack := rest })
    else
      pure (freshRef (getTable s r),
        setTable { s with stack := rest } r
          (tset (getTable s r) (TValue.number (freshRef (getTable s r))) v))
  | _, _ => throw LuaError.apicheck

/-- The luaL_unref call, after the Lua reference manual: removes the entry
of a non-negative reference from the table at idx; LUA_NOREF and LUA_REFNIL
are ignored. -/
def luaL_unref (s : State) (idx : Int) (ref : Int) : Except LuaError State := do
  if 0 ≤ ref then
    let o ← index2adr s idx
    match o with
    | TValue.table r => pure (setTable s r (tset (getTable s r) (TValue.number ref) TValue.nil))
    | _ => throw LuaError.apicheck
  else
    pure s

/-- The lua_rawget call: replaces the key on top by t[key]. -/
def lua_rawget (s : State) (idx : Int) : Except LuaError State := do
  let o ← index2adr s idx
  match o, s.stack with
  | TValue.table r, k :: rest => pure { s with stack := tget (getTable s r) k :: rest }
  | _, _ => throw LuaError.apicheck

/-- The lua_gettable call on a table that has no metatable (the tables of this
module have none): the raw read. -/
def lua_gettable (s : State) (idx : Int) : Except LuaError State :=
  lua_rawget s idx

def lua_pushlightuserdata (s : State) (p : Nat) : State := push s (TValue.lightuserdata p)

/-- The lua_insert call: moves the top element to the position idx, shifting
up the elements above that position. -/
def lua_insert (s : State) (idx : Int) : Except LuaError State :=
  let k : Nat := if idx < 0 then (-idx).toNat else s.stack.length + 1 - idx.toNat
  match s.stack with
  | v :: rest =>
    if 1 ≤ k ∧ k ≤ s.stack.length then
      Except.ok { s with stack := rest.take (k - 1) ++ v :: rest.drop (k - 1) }
    else Except.error LuaError.apicheck
  | [] => Except.error LuaError.apicheck

/-- The lua_newuserdata call: allocates a block, whose environment is that of
the running C function and which has no metatable, and pushes it. -/
def lua_newuserdata (s : State) : Nat × State :=
  (s.nextUd,
    { s with
      stack := TValue.userdata s.nextUd :: s.stack
      udEnv := Function.update s.udEnv s.nextUd s.curEnv
      udMeta := Function.update s.udMeta s.nextUd TValue.nil
      nextUd := s.nextUd + 1 })

/-- The lua_createtable call: pushes a new empty table. -/
def lua_createtable (s : State) : State :=
  { s with
    stack := TValue.table (TabRef.heap s.nextTab) :: s.stack
    tables := Function.update s.tables s.nextTab []
    nextTab := s.nextTab + 1 }

/-- The lua_setmetatable call for a userdata at idx: pops a table or nil and
installs it as the metatable. -/
def lua_setmetatable (s : State) (idx : Int) : Except LuaError State := do
  let o ← index2adr s idx
  match o, s.stack with
  | TValue.userdata u, TValue.nil :: rest =>
    pure { s with stack := rest, udMeta := Function.update s.udMeta u TValue.nil }
  | TValue.userdata u, TValue.table m :: rest =>
    pure { s with stack := rest, udMeta := Function.update s.udMeta u (TValue.table m) }
  | _, _ => throw LuaError.apicheck

/-- The lua_setfenv call: pops a table and installs it as the environment of
the function or userdata at idx; any other value at idx is left alone. -/
def lua_setfenv (s : State) (idx : Int) : Except LuaError State := do
  let o ← index2adr s idx
  match o, s.stack with
  | TValue.userdata u, TValue.table (TabRef.heap t) :: rest =>
    pure { s with stack := rest, udEnv := Function.update s.udEnv u t }
  | TValue.func f, TValue.table (TabRef.heap t) :: rest =>
    pure { s with stack := rest, fnEnv := Function.update s.fnEnv f t }
  | TValue.userdata _, _ => throw LuaError.apicheck
  | TValue.func _, _ => throw LuaError.apicheck
  | _, TValue.table _ :: rest => pure { s with stack := rest }
  | _, _ => throw LuaError.apicheck

/-- The luaL_checktype call for LUA_TFUNCTION. -/
def luaL_checktype_function (s : State) (narg : Int) : Except LuaError Unit := do
  let o ← index2adr s narg
  match o with
  | TValue.func _ => pure ()
  | _ => throw (LuaError.typerror narg ("function"))

/-- Text that printf shows for the result of lua_tostring on a value: the text
of a string or number, and the text printf gives a null pointer for any other
value. -/
def tostringValue : TValue → String
  | TValue.str x => x
  | TValue.number n => toString n
  | _ => "(null)"

/-- The lua_tostring call, as printf shows its result. -/
def lua_tostring (s : State) (idx : Int) : String :=
  match index2adr s idx with
  | Except.ok v => tostringValue v
  | Except.error _ => "(null)"

/-- Behaviour of a called host function: it returns results or raises an error
value, having changed the state. -/
inductive Outcome
  | returned (results : List TValue) (s : State)
  | raised (err : TValue) (s : State)

/-- The host functions: what calling the value f on the arguments does. -/
abbrev Host := TValue → List TValue → State → Outcome

/-- The lua_pcall call with nresults = 0: pops the function and its nargs
arguments and calls the function in a frame of its own that holds the
arguments. On a normal return nothing is pushed and the status is 0. On an
error the error value, passed through the handler at errfunc when errfunc is
not 0, is pushed and the status is LUA_ERRRUN (2), or LUA_ERRERR (5) when the
handler itself raised. -/
def lua_pcall (host : Host) (s : State) (nargs : Nat) (errfunc : Int) :
    Except LuaError (Int × State) := do
  let h ← if errfunc = 0 then pure TValue.nil else index2adr s errfunc
  if nargs + 1 ≤ s.stack.length then
    let rest := s.stack.drop (nargs + 1)
    match host ((s.stack[nargs]?).getD TValue.nil) (s.stack.take nargs).reverse
        { s with stack := s.stack.take nargs } with
    | Outcome.returned _ s1 => pure (0, { s1 with stack := rest })
    | Outcome.raised err s1 =>
      if errfunc = 0 then pure (2, { s1 with stack := err :: rest })
      else
        match host h [err] { s1 with stack := [err] } with
        | Outcome.returned rs s2 => pure (2, { s2 with stack := rs.headD TValue.nil :: rest })
        | Outcome.raised e2 s2 => pure (5, { s2 with stack := e2 :: rest })
  else throw LuaError.apicheck

/-- A C pointer as lua_touserdata returns it: null, the block of a full
userdata, or another address (static data, the payload of a light
userdata). -/
inductive Ptr
  | null
  | block (u : Nat)
  | addr (p : Nat)
  deriving DecidableEq, Repr

/-- The pointer lua_touserdata gives for a value: the block of a full
userdata, the payload of a light userdata (address 0 is the null pointer),
null for any other value. -/
def touserdata : TValue → Ptr
  | TValue.userdata u => Ptr.block u
  | TValue.lightuserdata p => if p = 0 then Ptr.null else Ptr.addr p
  | _ => Ptr.null

def lua_touserdata (s : State) (idx : Int) : Except LuaError Ptr := do
  let o ← index2adr s idx
  pure (touserdata o)

/-- The block a pointer to a userdata block names. -/
def blockOf : Ptr → Nat
  | Ptr.block u => u
  | Ptr.addr p => p
  | Ptr.null => 0

/-- The lua_getmetatable call: pushes the metatable of the userdata at idx and
returns 1, or pushes nothing and returns 0 when there is none. Tables and the
basic types are taken to have no metatable. -/
def lua_getmetatable (s : State) (idx : Int) : Except LuaError (Int × State) := do
  let o ← index2adr s idx
  match o with
  | TValue.userdata u =>
    match s.udMeta u with
    | TValue.table m => pure (1, push s (TValue.table m))
    | _ => pure (0, s)
  | _ => pure (0, s)

def lua_gettop (s : State) : Int := s.stack.length

/-- The lua_settop call: a non-negative idx truncates the frame or fills it
with nil up to idx elements; a negative idx pops. -/
def lua_settop (s : State) (idx : Int) : Except LuaError State :=
  if 0 ≤ idx then
    if idx.toNat ≤ s.stack.length then
      Except.ok { s with stack := s.stack.drop (s.stack.length - idx.toNat) }
    else
      Except.ok { s with
        stack := List.replicate (idx.toNat - s.stack.length) TValue.nil ++ s.stack }
  else if (-(idx + 1)).toNat ≤ s.stack.length then
    Except.ok { s with stack := s.stack.drop (-(idx + 1)).toNat }
  else Except.error LuaError.apicheck

/-- The lua_newtable call. -/
def lua_newtable (s : State) : State := lua_createtable s

/-- The lua_remove call: removes the element at idx, shifting down the
elements above it. -/
def lua_remove (s : State) (idx : Int) : Except LuaError State :=
  let k : Nat := if idx < 0 then (-idx).toNat else s.stack.length + 1 - idx.toNat
  if 1 ≤ k ∧ k ≤ s.stack.length then
    Except.ok { s with stack := s.stack.eraseIdx (k - 1) }
  else Except.error LuaError.apicheck

/-- The lua_replace call: stores the top element in the slot idx and pops
it. -/
def lua_replace (s : State) (idx : Int) : Except LuaError State :=
  let k : Nat := if idx < 0 then (-idx).toNat else s.stack.length + 1 - idx.toNat
  match s.stack with
  | v :: rest =>
    if 1 ≤ k ∧ k ≤ s.stack.length then
      Except.ok { s with stack := ((v :: rest).set (k - 1) v).tail }
    else Except.error LuaError.apicheck
  | [] => Except.error LuaError.apicheck

/-- The lua_isnil test: a positive index beyond the top has type none, which
is not nil. -/
def lua_isnil (s : State) (idx : Int) : Except LuaError Bool := do
  let o ← index2adr s idx
  pure (decide (o = TValue.nil) && !(decide (0 < idx) && decide (s.stack.length < idx.toNat)))

/-- The lua_settable call on a table that has no metatable: pops the value v
on top and the key k below it and stores t[k] = v in the table at idx. A nil
key and a value at idx that is not a table raise an error. -/
def lua_settable (s : State) (idx : Int) : Except LuaError State := do
  let o ← index2adr s idx
  match o, s.stack with
  | TValue.table r, v :: k :: rest =>
    if k = TValue.nil then throw (LuaError.error ("table index is nil"))
    else pure (setTable { s with stack := rest } r (tset (getTable s r) k v))
  | _, _ :: _ :: _ => throw (LuaError.error ("attempt to index a value that is not a table"))
  | _, _ => throw LuaError.apicheck

/-- The luaL_typerror call: raises the error that names the expected type. -/
def luaL_typerror {α : Type} (narg : Int) (tname : String) : Except LuaError α :=
  throw (LuaError.typerror narg tname)

/-- The luaL_checkint call: the integer of a number or of a numeric string. -/
def luaL_checkint (s : State) (narg : Int) : Except LuaError Int := do
  let o ← index2adr s narg
  match o with
  | TValue.number n => pure n
  | TValue.str x =>
    match x.toInt? with
    | some n => pure n
    | none => luaL_typerror narg ("number")
  | _ => luaL_typerror narg ("number")

/-! ## The libev calls -/

/-- The libev call ev_ref: increments the activecnt of the loop. -/
def ev_ref (s : State) (loop : Nat) : State :=
  { s with activecnt := Function.update s.activecnt loop (s.activecnt loop + 1) }

/-- The libev call ev_unref: decrements the activecnt of the loop. -/
def ev_unref (s : State) (loop : Nat) : State :=
  { s with activecnt := Function.update s.activecnt loop (s.activecnt loop - 1) }

/-- Store to wdata->watcher_ref. -/
def set_watcher_ref (s : State) (wdata : Nat) (r : Int) : State :=
  { s with wdata := Function.update s.wdata wdata { s.wdata wdata with watcher_ref := r } }

/-- Store to wdata->flags. -/
def set_flags (s : State) (wdata : Nat) (f : Nat) : State :=
  { s with wdata := Function.update s.wdata wdata { s.wdata wdata with flags := f } }

/-! ## loop_lua_ev.c -/

/-- The function loop_start_watcher of loop_lua_ev.c. The argument loop is the
native loop, wdata the header of the watcher, loop_i and watcher_i the stack
indices of the two handles, is_daemon is 0, 1 or -1 (inherit). -/
def loop_start_watcher (loop : Nat) (wdata : Nat) (loop_i watcher_i : Int) (is_daemon : Int)
    (s : State) : Except LuaError State :=
  let current_is_daemon : Int :=
    if (s.wdata wdata).flags &&& WATCHER_FLAG_IS_DAEMON = WATCHER_FLAG_IS_DAEMON then 1 else 0
  let is_daemon : Int := if is_daemon = -1 then current_is_daemon else is_daemon
  if (s.wdata wdata).watcher_ref = LUA_NOREF then do
    let s ← lua_pushvalue s watcher_i
    let (ref, s) ← luaL_ref s LUA_REGISTRYINDEX
    let s := set_watcher_ref s wdata ref
    let s ← lua_getfenv s watcher_i
    let s ← lua_pushvalue s loop_i
    let s ← lua_rawseti s (-2) WATCHER_LOOP
    let s :=
      if is_daemon ≠ 0 then
        set_flags (ev_unref s loop) wdata ((s.wdata wdata).flags ||| WATCHER_FLAG_IS_DAEMON)
      else
        set_flags s wdata (clearBits (s.wdata wdata).flags WATCHER_FLAG_IS_DAEMON)
    lua_pop s 1
  else if Int.xor current_is_daemon is_daemon ≠ 0 then
    if is_daemon ≠ 0 then
      pure (set_flags (ev_unref s loop) wdata ((s.wdata wdata).flags ||| WATCHER_FLAG_IS_DAEMON))
    else
      pure (set_flags (ev_ref s loop) wdata (clearBits (s.wdata wdata).flags WATCHER_FLAG_IS_DAEMON))
  else
    pure s

/-- The function loop_stop_watcher of loop_lua_ev.c. -/
def loop_stop_watcher (loop : Nat) (wdata : Nat) (watcher_i : Int)
    (s : State) : Except LuaError State :=
  if (s.wdata wdata).watcher_ref = LUA_NOREF then
    pure s
  else do
    let s ← luaL_unref s LUA_REGISTRYINDEX (s.wdata wdata).watcher_ref
    let s := set_watcher_ref s wdata LUA_NOREF
    let s ← lua_getfenv s watcher_i
    let s := if (s.wdata wdata).flags &&& WATCHER_FLAG_IS_DAEMON ≠ 0 then ev_ref s loop else s
    let s := lua_pushnil s
    let s ← lua_rawseti s (-2) WATCHER_LOOP
    lua_pop s 1

/-! ## lua_ev.c, obj_lua_ev.c -/

/-- Address of the static traceback_key of lua_ev.c. -/
def traceback_key : Nat := 1

/-- The function push_traceback of lua_ev.c. -/
def push_traceback (s : State) : Except LuaError State :=
  lua_gettable (lua_pushlightuserdata s traceback_key) LUA_REGISTRYINDEX

/-- The function lua_ev_getmetatable of obj_lua_ev.c; type_mt is the address of
the name of the type. -/
def lua_ev_getmetatable (s : State) (type_mt : Nat) : Except LuaError State :=
  lua_rawget (lua_pushlightuserdata s type_mt) LUA_REGISTRYINDEX

/-- The function obj_new of obj_lua_ev.c: returns the new block. -/
def obj_new (s : State) (size : Nat) (tname : Nat) : Except LuaError (Nat × State) := do
  let (obj, s) := lua_newuserdata s
  let s ← lua_ev_getmetatable s tname
  let s ← lua_setmetatable s (-2)
  pure (obj, s)

/-! ## watcher_lua_ev.c -/

/-- The function watcher_new of watcher_lua_ev.c. The header and the native
watcher share the block, so the block address names both. -/
def watcher_new (size : Nat) (lua_type : Nat) (s : State) : Except LuaError (Nat × State) := do
  luaL_checktype_function s 1
  let (obj, s) ← obj_new s size lua_type
  let s := lua_createtable s
  let s ← lua_pushvalue s 1
  let s ← lua_rawseti s (-2) WATCHER_FN
  let s ← lua_setfenv s (-2)
  let s := set_watcher_ref s obj LUA_NOREF
  let s := set_flags s obj 0
  pure (obj, s)

/-- The part of watcher_cb of watcher_lua_ev.c that precedes the protected
call: it leaves traceback, callback, loop, watcher and revents on the stack,
having run the stop bookkeeping when the native watcher is not active. The
state is that of the lua_State the loop carries as userdata; lua_checkstack is
taken to succeed, as the assert demands. -/
def watcher_cb_enter (loop : Nat) (watcher : Nat) (revents : Int) (s : State) :
    Except LuaError State := do
  let s ← push_traceback s
  let s ← lua_rawgeti s LUA_REGISTRYINDEX (s.wdata watcher).watcher_ref
  let s ← lua_getfenv s (-1)
  let s ← lua_rawgeti s (-1) WATCHER_FN
  let s ← lua_insert s (-3)
  let s ← lua_rawgeti s (-1) WATCHER_LOOP
  let s ← lua_insert s (-3)
  let s ← lua_pop s 1
  let s ← if s.active watcher = false then loop_stop_watcher loop watcher 1 s else pure s
  pure (lua_pushinteger s revents)

/-- The function watcher_cb of watcher_lua_ev.c. -/
def watcher_cb (host : Host) (loop : Nat) (watcher : Nat) (revents : Int) (s : State) :
    Except LuaError State := do
  let s ← watcher_cb_enter loop watcher revents s
  let (status, s) ← lua_pcall host s 3 (-5)
  if status ≠ 0 then
    let s := { s with stderr := s.stderr ++ ["CALLBACK FAILED: " ++ lua_tostring s (-1) ++ "\n"] }
    lua_pop s 2
  else
    lua_pop s 1

/-! ## Handle validation (obj_lua_ev.c, watcher_lua_ev.c) -/

/-- Addresses of the static arrays of lua_ev.c and watcher_lua_ev.c. -/
def watcher_magic : Nat := 2
def lua_ev_loop_mt : Nat := 3
def lua_ev_io_mt : Nat := 4
def lua_ev_timer_mt : Nat := 5
def lua_ev_signal_mt : Nat := 6
def lua_ev_idle_mt : Nat := 7
def lua_ev_child_mt : Nat := 8
def lua_ev_stat_mt : Nat := 9

/-- The text stored at the address of a type name. -/
def cstring (p : Nat) : String :=
  if p = lua_ev_loop_mt then "ev\x7bloop\x7d"
  else if p = lua_ev_io_mt then "ev\x7bio\x7d"
  else if p = lua_ev_timer_mt then "ev\x7btimer\x7d"
  else if p = lua_ev_signal_mt then "ev\x7bsignal\x7d"
  else if p = lua_ev_idle_mt then "ev\x7bidle\x7d"
  else if p = lua_ev_child_mt then "ev\x7bchild\x7d"
  else if p = lua_ev_stat_mt then "ev\x7bstat\x7d"
  else if p = watcher_magic then "ev\x7bwatcher\x7d"
  else ""

/-- The function lua_ev_checkobject of obj_lua_ev.c: returns the block and the
state, whose stack is the one it was given. -/
def lua_ev_checkobject (s : State) (idx : Int) (type_mt : Nat) :
    Except LuaError (Ptr × State) := do
  let ud ← lua_touserdata s idx
  if ud ≠ Ptr.null then
    let (has, s1) ← lua_getmetatable s idx
    if has ≠ 0 then
      let s2 ← lua_rawgeti s1 (-1) OBJ_TYPE_MAGIC_IDX
      let magic ← lua_touserdata s2 (-1)
      if magic = Ptr.addr type_mt then
        let s3 ← lua_pop s2 2
        pure (ud, s3)
      else luaL_typerror idx (cstring type_mt)
    else luaL_typerror idx (cstring type_mt)
  else luaL_typerror idx (cstring type_mt)

/-- The function check_watcher of watcher_lua_ev.c. -/
def check_watcher (s : State) (watcher_i : Int) : Except LuaError (Ptr × State) := do
  let watcher ← lua_touserdata s watcher_i
  if watcher ≠ Ptr.null then
    let (has, s1) ← lua_getmetatable s watcher_i
    if has ≠ 0 then
      let s2 ← lua_rawgeti s1 (-1) WATCHER_TYPE_MAGIC_IDX
      let magic ← lua_touserdata s2 (-1)
      if magic = Ptr.addr watcher_magic then
        let s3 ← lua_pop s2 2
        pure (watcher, s3)
      else luaL_typerror watcher_i ("ev\x7bio,timer,signal,idle\x7d")
    else luaL_typerror watcher_i ("ev\x7bio,timer,signal,idle\x7d")
  else luaL_typerror watcher_i ("ev\x7bio,timer,signal,idle\x7d")

/-! ## The watcher methods and the extension slot (watcher_lua_ev.c) -/

/-- The function watcher_callback of watcher_lua_ev.c: returns the number of
results and the state; the result is on top of the stack. -/
def watcher_callback (s : State) : Except LuaError (Int × State) := do
  let (_, s) ← check_watcher s 1
  let has_fn := decide (lua_gettop s > 1)
  let s ← lua_getfenv s 1
  let s ← lua_rawgeti s (-1) WATCHER_FN
  if has_fn then
    luaL_checktype_function s 2
    let s ← lua_pushvalue s 2
    let s ← lua_rawseti s (-3) WATCHER_FN
    pure (1, s)
  else
    pure (1, s)

/-- The function watcher_priority of watcher_lua_ev.c. -/
def watcher_priority (s : State) : Except LuaError (Int × State) := do
  let has_pri := decide (lua_gettop s > 1)
  let (w, s) ← check_watcher s 1
  let old_pri := s.priority (blockOf w)
  if has_pri then
    let pri ← luaL_checkint s 2
    let s := { s with priority := Function.update s.priority (blockOf w) pri }
    pure (1, lua_pushinteger s old_pri)
  else
    pure (1, lua_pushinteger s old_pri)

/-- The function watcher_shadow of watcher_lua_ev.c. -/
def watcher_shadow (s : State) : Except LuaError (Int × State) := do
  let (watcher, s) ← check_watcher s 1
  let wdata := blockOf watcher
  let has_param := decide (lua_gettop s > 1)
  let s ← lua_getfenv s 1
  let s ← lua_rawgeti s (-1) WATCHER_SHADOW
  if has_param then
    let isnil ← lua_isnil s 2
    let s :=
      if isnil then
        set_flags s wdata (clearBits (s.wdata wdata).flags WATCHER_FLAG_HAS_SHADOW)
      else
        set_flags s wdata ((s.wdata wdata).flags ||| WATCHER_FLAG_HAS_SHADOW)
    let s ← lua_pushvalue s 2
    let s ← lua_rawseti s (-3) WATCHER_SHADOW
    pure (1, s)
  else
    pure (1, s)

/-- The function watcher_newindex of watcher_lua_ev.c. -/
def watcher_newindex (s : State) : Except LuaError (Int × State) := do
  let (watcher, s) ← check_watcher s 1
  let wdata := blockOf watcher
  let s ← lua_settop s 3
  let s ←
    if (s.wdata wdata).flags &&& WATCHER_FLAG_HAS_SHADOW ≠ 0 then do
      let s ← lua_getfenv s 1
      let s ← lua_rawgeti s (-1) WATCHER_SHADOW
      lua_remove s (-2)
    else do
      let s ← lua_getfenv s 1
      let s := lua_newtable s
      let s ← lua_pushvalue s (-1)
      let s ← lua_rawseti s (-3) WATCHER_SHADOW
      pure (set_flags s wdata ((s.wdata wdata).flags ||| WATCHER_FLAG_HAS_SHADOW))
  let s ← lua_replace s 1
  let s ← lua_settable s 1
  pure (0, s)

/-- The function watcher_index of watcher_lua_ev.c; the methods table is the
first upvalue. -/
def watcher_index (s : State) : Except LuaError (Int × State) := do
  let s ← lua_pushvalue s 2
  let s ← lua_gettable s (lua_upvalueindex 1)
  let isnil ← lua_isnil s (-1)
  if !isnil then
    pure (1, s)
  else
    let s ← lua_pop s 1
    let (watcher, s) ← check_watcher s 1
    let wdata := blockOf watcher
    if (s.wdata wdata).flags &&& WATCHER_FLAG_HAS_SHADOW ≠ 0 then
      let s ← lua_getfenv s 1
      let s ← lua_rawgeti s (-1) WATCHER_SHADOW
      let s ← lua_remove s (-2)
      let s ← lua_pushvalue s 2
      let s ← lua_gettable s (-2)
      pure (1, s)
    else
      pure (1, lua_pushnil s)

/-! ## The loop methods (loop_lua_ev.c) -/

/-- The token lua_ev.h stores in the cell of the default loop handle until the
default loop is made. -/
def UNINITIALIZED_DEFAULT_LOOP : Nat := 1

/-- The null pointer. -/
def NULL : Nat := 0

def EVFLAG_AUTO : Int := 0
def EVUNLOOP_CANCEL : Int := 0
def EVUNLOOP_ONE : Int := 1
def EVUNLOOP_ALL : Int := 2

/-- The check_loop form of lua_ev.h. -/
def check_loop (s : State) (narg : Int) : Except LuaError (Ptr × State) :=
  lua_ev_checkobject s narg lua_ev_loop_mt

/-- The function check_loop_and_init of loop_lua_ev.c. The native constructor
ev_default_loop is a parameter: it returns a loop or NULL. The result is the
block of the loop handle or the raised error, together with the state the
call leaves, since what was stored in the cell stays stored when the error is
raised. -/
def check_loop_and_init (ev_default_loop : Int → Nat) (s : State) (loop_i : Int) :
    Except LuaError Nat × State :=
  match check_loop s loop_i with
  | Except.error e => (Except.error e, s)
  | Except.ok (loop_r, s) =>
    if UNINITIALIZED_DEFAULT_LOOP = s.cell (blockOf loop_r) then
      let s := { s with
        cell := Function.update s.cell (blockOf loop_r) (ev_default_loop EVFLAG_AUTO) }
      if NULL = s.cell (blockOf loop_r) then
        (Except.error (LuaError.error
          ("libev init failed, perhaps LIBEV_FLAGS environment variable " ++
            " is causing it to select a bad backend?")), s)
      else (Except.ok (blockOf loop_r), s)
    else (Except.ok (blockOf loop_r), s)

/-- The integer lua_tointeger gives, when lua_isnumber holds: for a number or a
numeric string. -/
def tointeger : TValue → Option Int
  | TValue.number n => some n
  | TValue.str x => x.toInt?
  | _ => none

/-- The function loop_new of loop_lua_ev.c; loop_alloc is obj_new with
LOOP_MT. The native constructor ev_loop_new is a parameter: it returns a loop
or NULL. -/
def loop_new (ev_loop_new : Int → Nat) (s : State) : Except LuaError (Int × State) := do
  let (loop_r, s) ← obj_new s 8 lua_ev_loop_mt
  let a ← index2adr s 1
  let flags : Int :=
    match tointeger a with
    | some n => n
    | none => EVFLAG_AUTO
  pure (1, { s with cell := Function.update s.cell loop_r (ev_loop_new flags) })

/-- The libev call ev_unloop: records the break request of the loop. -/
def ev_unloop (s : State) (loop : Nat) (how : Int) : State :=
  { s with loop_done := Function.update s.loop_done loop how }

/-- The function loop_unloop of loop_lua_ev.c. -/
def loop_unloop (ev_default_loop : Int → Nat) (s : State) : Except LuaError Int × State :=
  match check_loop_and_init ev_default_loop s 1 with
  | (Except.error e, s) => (Except.error e, s)
  | (Except.ok loop_r, s) => (Except.ok 0, ev_unloop s (s.cell loop_r) EVUNLOOP_ALL)

/-- The function loop_iteration of loop_lua_ev.c. -/
def loop_iteration (s : State) : Except LuaError (Int × State) := do
  let (loop_r, s) ← check_loop s 1
  let loop := s.cell (blockOf loop_r)
  pure (1, lua_pushinteger s
    (if UNINITIALIZED_DEFAULT_LOOP = loop then 0 else s.loop_count loop))

/-- The function loop_depth of loop_lua_ev.c. -/
def loop_depth (s : State) : Except LuaError (Int × State) := do
  let (loop_r, s) ← check_loop s 1
  let loop := s.cell (blockOf loop_r)
  pure (1, lua_pushinteger s
    (if UNINITIALIZED_DEFAULT_LOOP = loop then 0 else s.loop_depth loop))

/-! ## Observations used by the statements -/

/-- The IS_DAEMON bit of a watcher, as loop_start_watcher reads it into
current_is_daemon. -/
def daemonBit (s : State) (w : Nat) : Int :=
  if (s.wdata w).flags &&& WATCHER_FLAG_IS_DAEMON = WATCHER_FLAG_IS_DAEMON then 1 else 0

/-- The owning-loop entry of the extension record (fenv) of a watcher. -/
def ownerLoop (s : State) (w : Nat) : TValue :=
  tget (s.tables (s.udEnv w)) (TValue.number WATCHER_LOOP)

/-- The callback entry of the extension record (fenv) of a watcher. -/
def callbackOf (s : State) (w : Nat) : TValue :=
  tget (s.tables (s.udEnv w)) (TValue.number WATCHER_FN)

/-- An explicit daemon mode as the callers pass it (lua_toboolean). -/
def modeOf (d : Bool) : Int := if d then 1 else 0

/-- The daemon mode loop_start_watcher works with once -1 is resolved. -/
def resolveDaemon (s : State) (w : Nat) (is_daemon : Int) : Int :=
  if is_daemon = -1 then daemonBit s w else is_daemon

/-- Successive loop_start_watcher calls on one watcher and one loop with the
explicit daemon modes of the list. -/
def startSeq (loop w : Nat) (loop_i watcher_i : Int) : List Bool → State → Except LuaError State
  | [], s => Except.ok s
  | d :: ds, s =>
    match loop_start_watcher loop w loop_i watcher_i (modeOf d) s with
    | Except.ok s1 => startSeq loop w loop_i watcher_i ds s1
    | Except.error e => Except.error e

/-- A call of the lifecycle protocol on a watcher, made from a C frame whose
stack is stk. -/
inductive LifecycleCall
  | start (stk : List TValue) (loop : Nat) (loop_i watcher_i : Int) (is_daemon : Int)
  | stop (stk : List TValue) (loop : Nat) (watcher_i : Int)

def isUserdata : TValue → Bool
  | TValue.userdata _ => true
  | _ => false

/-- The call passes the stack index of the watcher w itself, and for a start
the stack index of a loop handle. -/
def ownIndex (w : Nat) : LifecycleCall → Bool
  | LifecycleCall.start stk _ loop_i watcher_i _ =>
    decide (0 < watcher_i) && decide (stackAt stk watcher_i = TValue.userdata w) &&
      decide (0 < loop_i) && isUserdata (stackAt stk loop_i)
  | LifecycleCall.stop stk _ watcher_i =>
    decide (0 < watcher_i) && decide (stackAt stk watcher_i = TValue.userdata w)

def runCall (w : Nat) : LifecycleCall → State → Except LuaError State
  | LifecycleCall.start stk loop loop_i watcher_i is_daemon, s =>
    loop_start_watcher loop w loop_i watcher_i is_daemon { s with stack := stk }
  | LifecycleCall.stop stk loop watcher_i, s =>
    loop_stop_watcher loop w watcher_i { s with stack := stk }

def runCalls (w : Nat) : List LifecycleCall → State → Except LuaError State
  | [], s => Except.ok s
  | c :: cs, s =>
    match runCall w c s with
    | Except.ok s1 => runCalls w cs s1
    | Except.error e => Except.error e

/-! ## Concrete states -/

/-- A frame as a start or stop method sees it: the watcher 20, unstarted, at
index 1, the handle 10 of the native loop 5 at index 2 and the handle 11 of
the native loop 6 at index 3. Table 2 is the fenv of the watcher and holds its
callback; table 1 is the environment of the C functions and of the loop
handles. -/
def exState : State :=
  { stack := [TValue.userdata 11, TValue.userdata 10, TValue.userdata 20]
    registry := [(TValue.lightuserdata traceback_key, TValue.func 0)]
    tables := fun t => if t = 2 then [(TValue.number WATCHER_FN, TValue.func 7)] else
      if t = 1 then [(TValue.number 2, TValue.str ("two"))] else []
    udEnv := fun u => if u = 20 then 2 else 1
    udMeta := fun _ => TValue.nil
    fnEnv := fun _ => 1
    curEnv := 1
    nextUd := 21
    nextTab := 3
    wdata := fun _ => { watcher_ref := LUA_NOREF, flags := 0 }
    activecnt := fun _ => 1
    active := fun _ => true
    stderr := [] }

/-- The watcher 20 started as a non-daemon on the loop 5, in the frame of
exState. -/
def exStarted : State :=
  { exState with
    registry := [(TValue.number 1, TValue.userdata 20),
      (TValue.lightuserdata traceback_key, TValue.func 0)]
    tables := fun t => if t = 2 then
        [(TValue.number WATCHER_LOOP, TValue.userdata 10), (TValue.number WATCHER_FN, TValue.func 7)]
      else if t = 1 then [(TValue.number 2, TValue.str ("two"))] else []
    wdata := fun _ => { watcher_ref := 1, flags := 0 } }

/-- The frame of a watcher constructor called with the callback 7, in the
heap of exState. -/
def exNewFrame : State := { exState with stack := [TValue.func 7] }

/-- The state watcher_new leaves from exNewFrame; the new watcher is 21. -/
def exNew : State :=
  match watcher_new 64 3 exNewFrame with
  | Except.ok (_, s) => s
  | Except.error _ => exNewFrame

/-- The frame of loop_loop while the native loop 5 dispatches: the loop
handle 10 is at index 1. The watcher 20 is started on the loop 5 and the
native loop has just stopped it (a timer that fired and does not repeat). -/
def exDispatch : State :=
  { exStarted with stack := [TValue.userdata 10], active := fun _ => false }

/-- A host in which the callback 7 raises the string boom and every other
function, the traceback handler among them, returns its first argument. -/
def exHost : Host := fun f args s =>
  if f = TValue.func 7 then Outcome.raised (TValue.str ("boom")) s
  else Outcome.returned [args.headD TValue.nil] s

/-- The value v is a full userdata whose metatable holds the light userdata
magic in the given slot. -/
def hasMagic (s : State) (v : TValue) (slot : Int) (magic : Nat) : Bool :=
  match v with
  | TValue.userdata u =>
    match s.udMeta u with
    | TValue.table m =>
      decide (tget (getTable s m) (TValue.number slot) = TValue.lightuserdata magic)
    | _ => false
  | _ => false

/-- A heap with handles as the module makes them: the timer watcher 20, whose
metatable 3 carries the timer magic and the watcher magic and whose fenv 2
holds the callback, and the loop handles 10 and 11, whose metatable 6 carries
the loop magic; the registry holds both metatables under their type names.
Table 4 is the methods table of the timer metatable. The cell
of the handle 10 holds the uninitialized default loop token, the cell of the
handle 11 the native loop 6. -/
def exSlot : State :=
  { exState with
    stack := []
    registry := [(TValue.lightuserdata traceback_key, TValue.func 0),
      (TValue.lightuserdata lua_ev_loop_mt, TValue.table (TabRef.heap 6)),
      (TValue.lightuserdata lua_ev_timer_mt, TValue.table (TabRef.heap 3))]
    udMeta := fun u =>
      if u = 20 then TValue.table (TabRef.heap 3)
      else if u = 10 ∨ u = 11 then TValue.table (TabRef.heap 6)
      else TValue.nil
    tables := fun t =>
      if t = 2 then [(TValue.number WATCHER_FN, TValue.func 7)]
      else if t = 3 then [(TValue.number 1, TValue.lightuserdata lua_ev_timer_mt),
        (TValue.number 2, TValue.lightuserdata watcher_magic)]
      else if t = 4 then [(TValue.str ("start"), TValue.func 30),
        (TValue.str ("stop"), TValue.func 31)]
      else if t = 6 then [(TValue.number 1, TValue.lightuserdata lua_ev_loop_mt)]
      else []
    nextTab := 7
    cell := fun u => if u = 10 then 1 else if u = 11 then 6 else 0
    loop_count := fun l => if l = 6 then 12 else 0
    loop_depth := fun l => if l = 6 then 1 else 0 }

/-- The HAS_SHADOW bit of a watcher is set. -/
def hasShadow (s : State) (w : Nat) : Bool :=
  decide ((s.wdata w).flags &&& WATCHER_FLAG_HAS_SHADOW ≠ 0)

/-- The shadow entry of the extension record (fenv) of a watcher. -/
def shadowOf (s : State) (w : Nat) : TValue :=
  tget (s.tables (s.udEnv w)) (TValue.number WATCHER_SHADOW)

/-- A public operation on a watcher: a property write or read (the metamethods
__newindex and __index), the methods callback, priority and shadow with or
without their argument, and the start and stop of the lifecycle protocol. -/
inductive WatcherOp
  | newindex (k v : TValue)
  | index (k : TValue)
  | callback (arg : Option TValue)
  | priority (arg : Option TValue)
  | shadow (arg : Option TValue)
  | lifecycle (c : LifecycleCall)

/-- The frame of a method called on the watcher w with at most one argument. -/
def argFrame (w : Nat) : Option TValue → List TValue
  | none => [TValue.userdata w]
  | some a => [a, TValue.userdata w]

/-- The state an operation on the watcher w leaves; methods is the first
upvalue of the __index closure. -/
def runOp (w : Nat) (methods : TValue) : WatcherOp → State → Except LuaError State
  | WatcherOp.newindex k v, s =>
    (watcher_newindex { s with stack := [v, k, TValue.userdata w] }).map Prod.snd
  | WatcherOp.index k, s =>
    (watcher_index { s with stack := [k, TValue.userdata w], upvalues := [methods] }).map
      Prod.snd
  | WatcherOp.callback arg, s =>
    (watcher_callback { s with stack := argFrame w arg }).map Prod.snd
  | WatcherOp.priority arg, s =>
    (watcher_priority { s with stack := argFrame w arg }).map Prod.snd
  | WatcherOp.shadow arg, s =>
    (watcher_shadow { s with stack := argFrame w arg }).map Prod.snd
  | WatcherOp.lifecycle c, s => runCall w c s

/-- A sequence of operations, up to the first one that raises. -/
def runOps (w : Nat) (methods : TValue) : List WatcherOp → State → Except LuaError State
  | [], s => Except.ok s
  | op :: ops, s =>
    match runOp w methods op s with
    | Except.ok s1 => runOps w methods ops s1
    | Except.error e => Except.error e

/-- The operation is watcher_shadow called with nil. -/
def isShadowNil : WatcherOp → Bool
  | WatcherOp.shadow (some TValue.nil) => true
  | _ => false

/-- A lifecycle call passes the stack index of the watcher itself; the other
operations have the watcher at index 1 by construction. -/
def opOwnIndex (w : Nat) : WatcherOp → Bool
  | WatcherOp.lifecycle c => ownIndex w c
  | _ => true

/-- The methods table of exSlot as the first upvalue of the __index closure. -/
def exMethods : TValue := TValue.table (TabRef.heap 4)

/-- The state the first property write, of 42 under the key x, leaves on the
watcher 20 of exSlot. -/
def exWritten : State :=
  match runOp 20 exMethods (WatcherOp.newindex (TValue.str ("x")) (TValue.number 42)) exSlot with
  | Except.ok s => s
  | Except.error _ => exSlot

/-- Operations on the watcher 20 that follow the first property write. -/
def exOps : List WatcherOp :=
  [WatcherOp.newindex (TValue.str ("y")) (TValue.number 43),
   WatcherOp.index (TValue.str ("y")),
   WatcherOp.callback none,
   WatcherOp.priority (some (TValue.number 1)),
   WatcherOp.shadow none,
   WatcherOp.lifecycle (LifecycleCall.start [TValue.userdata 10, TValue.userdata 20] 5 2 1 1)]

/-- The state exOps leave from exWritten. -/
def exAfterOps : State :=
  match runOps 20 exMethods exOps exWritten with
  | Except.ok s => s
  | Except.error _ => exWritten

/-- The value a C function that returns 1 hands back: the top of its stack. -/
def returned : Except LuaError (Int × State) → Option TValue
  | Except.ok (n, s) => if n = 1 then s.stack.head? else none
  | Except.error _ => none

/-- The frame of the __index metamethod on the watcher w. -/
def indexFrame (s : State) (w : Nat) (k methods : TValue) : State :=
  { s with stack := [k, TValue.userdata w], upvalues := [methods] }

/-- A lifecycle call on the watcher w and the native loop: it passes the index
of the watcher, for a start the index of a loop handle and a daemon mode that
is explicit (0 or 1) or inherit (-1). -/
def onLoop (w loop : Nat) : LifecycleCall → Bool
  | LifecycleCall.start stk l loop_i watcher_i is_daemon =>
    ownIndex w (LifecycleCall.start stk l loop_i watcher_i is_daemon) && decide (l = loop) &&
      (decide (is_daemon = 0) || decide (is_daemon = 1) || decide (is_daemon = -1))
  | LifecycleCall.stop stk l watcher_i =>
    ownIndex w (LifecycleCall.stop stk l watcher_i) && decide (l = loop)

/-- The share a watcher has taken off the activecnt of its loop: 1 when it
holds a reference and IS_DAEMON is set, else 0. -/
def daemonShare (s : State) (w : Nat) : Int :=
  if (s.wdata w).watcher_ref ≠ LUA_NOREF ∧ daemonBit s w = 1 then 1 else 0

def isStop : LifecycleCall → Bool
  | LifecycleCall.stop _ _ _ => true
  | _ => false

/-! ## Tables, stack indices and flag bits -/

theorem index2adr_pos (s : State) (i : Int) (h : 0 < i) :
    index2adr s i = Except.ok (stackAt s.stack i) := by
  simp [index2adr, h]

theorem stackAt_cons (stk : List TValue) (x : TValue) (i : Int) (v : TValue)
    (h : stackAt stk i = v) (hv : v ≠ TValue.nil) : stackAt (x :: stk) i = v := by
  unfold stackAt at *
  cases hget : stk.reverse[(i - 1).toNat]? with
  | none =>
    rw [hget] at h
    exact absurd h.symm hv
  | some y =>
    have hlt : (i - 1).toNat < stk.reverse.length := by
      by_contra hx
      rw [List.getElem?_eq_none (Nat.le_of_not_lt hx)] at hget
      exact Option.noConfusion hget
    rw [List.reverse_cons, List.getElem?_append_left hlt, hget]
    rw [hget] at h
    exact h

theorem tget_terase_same (t : Table) (k : TValue) : tget (terase t k) k = TValue.nil := by
  induction t with
  | nil => rfl
  | cons a t ih =>
    obtain ⟨k', v'⟩ := a
    by_cases hk : k' = k <;> simp [terase, tget, hk, ih]

theorem tget_terase_ne (t : Table) (k k' : TValue) (hk : k' ≠ k) :
    tget (terase t k) k' = tget t k' := by
  induction t with
  | nil => rfl
  | cons a t ih =>
    obtain ⟨k0, v0⟩ := a
    by_cases h0 : k0 = k
    · have h2 : ¬ k = k' := fun e => hk e.symm
      subst h0
      simp [terase, tget, ih, h2]
    · by_cases h1 : k0 = k'
      · subst h1
        simp [terase, tget, h0]
      · simp [terase, tget, h0, h1, ih]

theorem tget_tset_same (t : Table) (k v : TValue) : tget (tset t k v) k = v := by
  unfold tset
  by_cases hv : v = TValue.nil
  · simp [hv, tget_terase_same]
  · simp [hv, tget]

theorem tget_tset_ne (t : Table) (k k' v : TValue) (hk : k' ≠ k) :
    tget (tset t k v) k' = tget t k' := by
  unfold tset
  have h2 : k ≠ k' := fun e => hk e.symm
  by_cases hv : v = TValue.nil
  · simp [hv, tget_terase_ne _ _ _ hk]
  · simp [hv, tget, tget_terase_ne _ _ _ hk, h2]

theorem freshRef_pos (t : Table) : 1 ≤ freshRef t := by
  induction t with
  | nil => simp [freshRef]
  | cons a t ih =>
    obtain ⟨k, v⟩ := a
    cases k <;> simp [freshRef, ih]

theorem tget_of_freshRef_le (t : Table) (n : Int) (h : freshRef t ≤ n) :
    tget t (TValue.number n) = TValue.nil := by
  induction t with
  | nil => rfl
  | cons a t ih =>
    obtain ⟨k, v⟩ := a
    cases k with
    | number m =>
      simp [freshRef] at h
      have hne : m ≠ n := by omega
      simp [tget, hne, ih h.2]
    | _ => simp [freshRef] at h; simp [tget, ih h]

theorem or_daemon_bit (f : Nat) : (f ||| 1) &&& 1 = 1 := by
  rw [Nat.and_one_is_mod]
  have := Nat.or_mod_two_eq_one (a := f) (b := 1)
  simp [this]

theorem clear_daemon_bit (f : Nat) : clearBits f 1 &&& 1 = 0 := by
  unfold clearBits
  rw [Nat.and_assoc]
  have : (4294967295 - 1) &&& 1 = 0 := by decide
  rw [this, Nat.and_zero]

theorem daemon_bit_ne_zero (f : Nat) : f &&& 1 ≠ 0 ↔ f &&& 1 = 1 := by
  rw [Nat.and_one_is_mod]
  omega

theorem daemonBit_cases (s : State) (w : Nat) : daemonBit s w = 0 ∨ daemonBit s w = 1 := by
  unfold daemonBit
  split
  · exact Or.inr rfl
  · exact Or.inl rfl

theorem daemonBit_or (s : State) (w : Nat) (f : Nat)
    (h : (s.wdata w).flags = f ||| WATCHER_FLAG_IS_DAEMON) : daemonBit s w = 1 := by
  simp [daemonBit, h, WATCHER_FLAG_IS_DAEMON, or_daemon_bit]

theorem daemonBit_clear (s : State) (w : Nat) (f : Nat)
    (h : (s.wdata w).flags = clearBits f WATCHER_FLAG_IS_DAEMON) : daemonBit s w = 0 := by
  have h2 := clear_daemon_bit f
  rw [Nat.and_one_is_mod] at h2
  simp [daemonBit, h, WATCHER_FLAG_IS_DAEMON, h2]

/-! ## Closed forms of loop_start_watcher and loop_stop_watcher -/

theorem start_stopped (s : State) (loop w : Nat) (loop_i watcher_i : Int) (lv : TValue)
    (is_daemon : Int)
    (hwi : 0 < watcher_i) (hli : 0 < loop_i)
    (hw : stackAt s.stack watcher_i = TValue.userdata w)
    (hl : stackAt s.stack loop_i = lv) (hlv : lv ≠ TValue.nil)
    (href : (s.wdata w).watcher_ref = LUA_NOREF) :
    loop_start_watcher loop w loop_i watcher_i is_daemon s = Except.ok
      { s with
        registry := tset s.registry (TValue.number (freshRef s.registry)) (TValue.userdata w)
        tables := Function.update s.tables (s.udEnv w)
          (tset (s.tables (s.udEnv w)) (TValue.number WATCHER_LOOP) lv)
        wdata := Function.update s.wdata w
          { watcher_ref := freshRef s.registry
            flags := if resolveDaemon s w is_daemon ≠ 0
                     then (s.wdata w).flags ||| WATCHER_FLAG_IS_DAEMON
                     else clearBits (s.wdata w).flags WATCHER_FLAG_IS_DAEMON }
        activecnt := if resolveDaemon s w is_daemon ≠ 0
                     then Function.update s.activecnt loop (s.activecnt loop - 1)
                     else s.activecnt } := by
  have hl1 : ∀ x, stackAt (x :: s.stack) loop_i = lv := fun x => stackAt_cons _ _ _ _ hl hlv
  by_cases hd : resolveDaemon s w is_daemon = 0 <;>
  simp only [resolveDaemon, daemonBit] at hd <;>
  simp [loop_start_watcher, href, lua_pushvalue, index2adr_pos, hwi, hli, hw, hl1, push, luaL_ref,
    index2adr, LUA_REGISTRYINDEX, getTable, setTable, set_watcher_ref, lua_getfenv,
    lua_rawseti, set_flags, ev_unref, lua_pop, resolveDaemon, daemonBit, hd,
    bind, Except.bind, pure, Except.pure]

theorem start_started (s : State) (loop w : Nat) (loop_i watcher_i : Int) (is_daemon : Int)
    (href : (s.wdata w).watcher_ref ≠ LUA_NOREF) :
    loop_start_watcher loop w loop_i watcher_i is_daemon s = Except.ok
      (if Int.xor (daemonBit s w) (resolveDaemon s w is_daemon) ≠ 0 then
         if resolveDaemon s w is_daemon ≠ 0 then
           set_flags (ev_unref s loop) w ((s.wdata w).flags ||| WATCHER_FLAG_IS_DAEMON)
         else
           set_flags (ev_ref s loop) w (clearBits (s.wdata w).flags WATCHER_FLAG_IS_DAEMON)
       else s) := by
  unfold loop_start_watcher resolveDaemon daemonBit
  simp only [href, if_false]
  split_ifs <;> rfl

theorem start_started_mode (s : State) (loop w : Nat) (loop_i watcher_i : Int) (d : Bool)
    (href : (s.wdata w).watcher_ref ≠ LUA_NOREF) :
    loop_start_watcher loop w loop_i watcher_i (modeOf d) s = Except.ok
      (if daemonBit s w = modeOf d then s
       else if d then
         set_flags (ev_unref s loop) w ((s.wdata w).flags ||| WATCHER_FLAG_IS_DAEMON)
       else
         set_flags (ev_ref s loop) w (clearBits (s.wdata w).flags WATCHER_FLAG_IS_DAEMON)) := by
  have x00 : Int.xor 0 0 = 0 := by decide
  have x11 : Int.xor 1 1 = 0 := by decide
  have x01 : Int.xor 0 1 ≠ 0 := by decide
  have x10 : Int.xor 1 0 ≠ 0 := by decide
  rw [start_started s loop w loop_i watcher_i (modeOf d) href]
  rcases daemonBit_cases s w with h | h <;> cases d <;>
  simp [resolveDaemon, modeOf, h, x00, x11, x01, x10]

theorem stop_stopped (s : State) (loop w : Nat) (watcher_i : Int)
    (href : (s.wdata w).watcher_ref = LUA_NOREF) :
    loop_stop_watcher loop w watcher_i s = Except.ok s := by
  simp [loop_stop_watcher, href, pure, Except.pure]

theorem stop_started (s : State) (loop w : Nat) (watcher_i : Int) (u : Nat)
    (hwi : 0 < watcher_i)
    (hw : stackAt s.stack watcher_i = TValue.userdata u)
    (href : (s.wdata w).watcher_ref ≠ LUA_NOREF) :
    loop_stop_watcher loop w watcher_i s = Except.ok
      { s with
        registry :=
          if 0 ≤ (s.wdata w).watcher_ref then
            tset s.registry (TValue.number (s.wdata w).watcher_ref) TValue.nil
          else s.registry
        tables := Function.update s.tables (s.udEnv u)
          (tset (s.tables (s.udEnv u)) (TValue.number WATCHER_LOOP) TValue.nil)
        wdata := Function.update s.wdata w
          { watcher_ref := LUA_NOREF, flags := (s.wdata w).flags }
        activecnt :=
          if (s.wdata w).flags &&& WATCHER_FLAG_IS_DAEMON ≠ 0 then
            Function.update s.activecnt loop (s.activecnt loop + 1)
          else s.activecnt } := by
  by_cases hr : 0 ≤ (s.wdata w).watcher_ref <;>
  by_cases hf : (s.wdata w).flags &&& WATCHER_FLAG_IS_DAEMON = 0 <;>
  simp [loop_stop_watcher, href, hr, hf, luaL_unref, index2adr, index2adr_pos, hwi, hw,
    LUA_REGISTRYINDEX, getTable, setTable, set_watcher_ref, lua_getfenv, push, ev_ref,
    lua_pushnil, lua_rawseti, lua_pop, bind, Except.bind, pure, Except.pure]


/-! ## The lifecycle protocol -/

/-- What loop_start_watcher with an explicit mode does to a stopped watcher. -/
theorem start_stopped_effect (s : State) (loop w : Nat) (loop_i watcher_i : Int)
    (lh : Nat) (d : Bool)
    (hwi : 0 < watcher_i) (hli : 0 < loop_i)
    (hw : stackAt s.stack watcher_i = TValue.userdata w)
    (hl : stackAt s.stack loop_i = TValue.userdata lh)
    (href : (s.wdata w).watcher_ref = LUA_NOREF) :
    ∃ s1, loop_start_watcher loop w loop_i watcher_i (modeOf d) s = Except.ok s1 ∧
      (s1.wdata w).watcher_ref ≠ LUA_NOREF ∧
      tget s.registry (TValue.number (s1.wdata w).watcher_ref) = TValue.nil ∧
      tget s1.registry (TValue.number (s1.wdata w).watcher_ref) = TValue.userdata w ∧
      (∀ k, k ≠ TValue.number (s1.wdata w).watcher_ref →
        tget s1.registry k = tget s.registry k) ∧
      ownerLoop s1 w = TValue.userdata lh ∧
      s1.activecnt loop = s.activecnt loop - modeOf d ∧
      (∀ l, l ≠ loop → s1.activecnt l = s.activecnt l) ∧
      daemonBit s1 w = modeOf d := by
  refine ⟨_, start_stopped s loop w loop_i watcher_i (TValue.userdata lh) (modeOf d)
    hwi hli hw hl (by simp) href, ?_⟩
  have hpos := freshRef_pos s.registry
  refine ⟨?_, ?_, ?_, ?_, ?_, ?_, ?_, ?_⟩
  · simp [LUA_NOREF]; omega
  · simpa using tget_of_freshRef_le s.registry _ (le_refl _)
  · simp [tget_tset_same]
  · intro k hk
    simp at hk
    simp [tget_tset_ne _ _ _ _ hk]
  · simp [ownerLoop, tget_tset_same]
  · cases d <;> simp [resolveDaemon, modeOf]
  · intro l hl2
    cases d <;> simp [resolveDaemon, modeOf, Function.update_noteq hl2]
  · cases d
    · exact daemonBit_clear _ w (s.wdata w).flags (by simp [resolveDaemon, modeOf])
    · exact daemonBit_or _ w (s.wdata w).flags (by simp [resolveDaemon, modeOf])

/-- C1: loop_start_watcher on a watcher that holds no strong reference, called
with the stack indices of the watcher and of a loop handle and an explicit
daemon mode d, succeeds; afterwards watcher_ref is a key that was not in
use in the registry and now maps to the watcher, every other registry entry is
unchanged, the fenv records the loop handle as owner, the activecnt of the
loop is decremented by 1 when d is true and unchanged when d is false, and
the IS_DAEMON bit equals d. -/
theorem start_of_stopped_watcher (s : State) (loop w : Nat) (loop_i watcher_i : Int)
    (lh : Nat) (d : Bool)
    (hwi : 0 < watcher_i) (hli : 0 < loop_i)
    (hw : stackAt s.stack watcher_i = TValue.userdata w)
    (hl : stackAt s.stack loop_i = TValue.userdata lh)
    (href : (s.wdata w).watcher_ref = LUA_NOREF) :
    ∃ s1, loop_start_watcher loop w loop_i watcher_i (modeOf d) s = Except.ok s1 ∧
      (s1.wdata w).watcher_ref ≠ LUA_NOREF ∧
      tget s.registry (TValue.number (s1.wdata w).watcher_ref) = TValue.nil ∧
      tget s1.registry (TValue.number (s1.wdata w).watcher_ref) = TValue.userdata w ∧
      (∀ k, k ≠ TValue.number (s1.wdata w).watcher_ref →
        tget s1.registry k = tget s.registry k) ∧
      ownerLoop s1 w = TValue.userdata lh ∧
      s1.activecnt loop = s.activecnt loop - modeOf d ∧
      (∀ l, l ≠ loop → s1.activecnt l = s.activecnt l) ∧
      daemonBit s1 w = modeOf d :=
  start_stopped_effect s loop w loop_i watcher_i lh d hwi hli hw hl href

theorem start_of_stopped_watcher_witness :
    ∃ s1, loop_start_watcher 5 20 2 1 (modeOf true) exState = Except.ok s1 ∧
      (s1.wdata 20).watcher_ref ≠ LUA_NOREF ∧
      tget exState.registry (TValue.number (s1.wdata 20).watcher_ref) = TValue.nil ∧
      tget s1.registry (TValue.number (s1.wdata 20).watcher_ref) = TValue.userdata 20 ∧
      (∀ k, k ≠ TValue.number (s1.wdata 20).watcher_ref →
        tget s1.registry k = tget exState.registry k) ∧
      ownerLoop s1 20 = TValue.userdata 10 ∧
      s1.activecnt 5 = exState.activecnt 5 - modeOf true ∧
      (∀ l, l ≠ 5 → s1.activecnt l = exState.activecnt l) ∧
      daemonBit s1 20 = modeOf true :=
  start_of_stopped_watcher exState 5 20 2 1 10 true (by decide) (by decide) (by decide)
    (by decide) (by decide)

theorem bind_eq_ok {α β : Type} (x : Except LuaError α) (f : α → Except LuaError β) (b : β) :
    (x >>= f) = Except.ok b ↔ ∃ a, x = Except.ok a ∧ f a = Except.ok b := by
  cases x <;> simp [bind, Except.bind]

theorem lua_getfenv_wdata {s s1 : State} {i : Int} (h : lua_getfenv s i = Except.ok s1) :
    s1.wdata = s.wdata := by
  unfold lua_getfenv at h
  cases hi : index2adr s i with
  | error e => simp [hi, bind, Except.bind] at h
  | ok o =>
    cases o <;> simp [hi, bind, Except.bind, pure, Except.pure, push] at h <;> subst h <;> rfl

theorem lua_rawseti_wdata {s s1 : State} {i n : Int} (h : lua_rawseti s i n = Except.ok s1) :
    s1.wdata = s.wdata := by
  unfold lua_rawseti at h
  cases hi : index2adr s i with
  | error e => simp [hi, bind, Except.bind] at h
  | ok o =>
    cases hs : s.stack with
    | nil => cases o <;> simp [hi, hs, bind, Except.bind, throw, throwThe, MonadExceptOf.throw] at h
    | cons v rest =>
      cases o with
      | table r =>
        simp [hi, hs, bind, Except.bind, pure, Except.pure] at h
        subst h
        cases r <;> rfl
      | _ => simp [hi, hs, bind, Except.bind, throw, throwThe, MonadExceptOf.throw] at h

theorem lua_pop_wdata {s s1 : State} {n : Nat} (h : lua_pop s n = Except.ok s1) :
    s1.wdata = s.wdata := by
  unfold lua_pop at h
  split at h
  · injection h with h; subst h; rfl
  · exact Except.noConfusion h

/-- A successful loop_stop_watcher leaves the watcher without a reference. -/
theorem stop_ok_ref (s s1 : State) (loop w : Nat) (watcher_i : Int)
    (h : loop_stop_watcher loop w watcher_i s = Except.ok s1) :
    (s1.wdata w).watcher_ref = LUA_NOREF := by
  unfold loop_stop_watcher at h
  by_cases href : (s.wdata w).watcher_ref = LUA_NOREF
  · simp [href, pure, Except.pure] at h
    subst h
    exact href
  · simp only [href, if_false, bind_eq_ok] at h
    obtain ⟨a1, _, a2, h2, a3, h3, h4⟩ := h
    rw [lua_pop_wdata h4, lua_rawseti_wdata h3]
    have h5 : (a2.wdata w).watcher_ref = LUA_NOREF := by
      rw [lua_getfenv_wdata h2]
      simp [set_watcher_ref]
    split_ifs <;> simpa [lua_pushnil, push, ev_ref] using h5

/-- C2: loop_stop_watcher on a watcher that holds a strong reference, called
with the stack index of the watcher, succeeds; afterwards watcher_ref is
LUA_NOREF, the registry entry of the reference is gone and every other
registry entry is unchanged, the owning-loop entry of the fenv is cleared, and
the activecnt of the loop is incremented by 1 when IS_DAEMON was set and
unchanged otherwise. -/
theorem stop_of_started_watcher (s : State) (loop w : Nat) (watcher_i : Int)
    (hwi : 0 < watcher_i)
    (hw : stackAt s.stack watcher_i = TValue.userdata w)
    (hr : 0 ≤ (s.wdata w).watcher_ref)
    (hreg : tget s.registry (TValue.number (s.wdata w).watcher_ref) = TValue.userdata w) :
    ∃ s1, loop_stop_watcher loop w watcher_i s = Except.ok s1 ∧
      (s1.wdata w).watcher_ref = LUA_NOREF ∧
      tget s1.registry (TValue.number (s.wdata w).watcher_ref) = TValue.nil ∧
      (∀ k, k ≠ TValue.number (s.wdata w).watcher_ref →
        tget s1.registry k = tget s.registry k) ∧
      ownerLoop s1 w = TValue.nil ∧
      s1.activecnt loop = s.activecnt loop + daemonBit s w ∧
      (∀ l, l ≠ loop → s1.activecnt l = s.activecnt l) := by
  have href : (s.wdata w).watcher_ref ≠ LUA_NOREF := by
    intro e
    rw [e] at hr
    exact absurd hr (by decide)
  refine ⟨_, stop_started s loop w watcher_i w hwi hw href, ?_⟩
  refine ⟨?_, ?_, ?_, ?_, ?_, ?_⟩
  · simp
  · simp [hr, tget_tset_same]
  · intro k hk
    simp [hr, tget_tset_ne _ _ _ _ hk]
  · simp [ownerLoop, tget_tset_same]
  · rcases Nat.mod_two_eq_zero_or_one (s.wdata w).flags with h | h <;>
    simp [daemonBit, WATCHER_FLAG_IS_DAEMON, h]
  · intro l hl
    by_cases hf : (s.wdata w).flags &&& WATCHER_FLAG_IS_DAEMON = 0 <;>
    simp [hf, Function.update_noteq hl]

theorem stop_of_started_watcher_witness :
    ∃ s1, loop_stop_watcher 5 20 1 exStarted = Except.ok s1 ∧
      (s1.wdata 20).watcher_ref = LUA_NOREF ∧
      tget s1.registry (TValue.number (exStarted.wdata 20).watcher_ref) = TValue.nil ∧
      (∀ k, k ≠ TValue.number (exStarted.wdata 20).watcher_ref →
        tget s1.registry k = tget exStarted.registry k) ∧
      ownerLoop s1 20 = TValue.nil ∧
      s1.activecnt 5 = exStarted.activecnt 5 + daemonBit exStarted 20 ∧
      (∀ l, l ≠ 5 → s1.activecnt l = exStarted.activecnt l) :=
  stop_of_started_watcher exStarted 5 20 1 (by decide) (by decide) (by decide) (by decide)

/-- C3: loop_stop_watcher on a watcher that holds no strong reference returns
the state it was given (registry, activecnt, flags and fenv included), and a
stop that follows a successful stop changes nothing. -/
theorem stop_is_idempotent (s : State) (loop w : Nat) (watcher_i : Int) :
    ((s.wdata w).watcher_ref = LUA_NOREF →
      loop_stop_watcher loop w watcher_i s = Except.ok s) ∧
    (∀ s1, loop_stop_watcher loop w watcher_i s = Except.ok s1 →
      loop_stop_watcher loop w watcher_i s1 = Except.ok s1) :=
  ⟨stop_stopped s loop w watcher_i,
   fun s1 h => stop_stopped s1 loop w watcher_i (stop_ok_ref s s1 loop w watcher_i h)⟩

theorem stop_is_idempotent_witness :
    loop_stop_watcher 5 20 1 exState = Except.ok exState ∧
    loop_stop_watcher 5 20 1 exState = Except.ok exState :=
  ⟨(stop_is_idempotent exState 5 20 1).1 (by decide),
   (stop_is_idempotent exState 5 20 1).2 exState
     ((stop_is_idempotent exState 5 20 1).1 (by decide))⟩

/-- What loop_start_watcher with an explicit mode does to a started watcher:
the activecnt of the loop moves by the old IS_DAEMON bit minus the new one,
the bit becomes the mode, and nothing but flags and activecnt changes. -/
theorem start_started_effect (s : State) (loop w : Nat) (loop_i watcher_i : Int) (d : Bool)
    (href : (s.wdata w).watcher_ref ≠ LUA_NOREF) :
    ∃ s1, loop_start_watcher loop w loop_i watcher_i (modeOf d) s = Except.ok s1 ∧
      s1.activecnt loop = s.activecnt loop + (daemonBit s w - modeOf d) ∧
      daemonBit s1 w = modeOf d ∧
      (s1.wdata w).watcher_ref = (s.wdata w).watcher_ref ∧
      s1.registry = s.registry ∧ s1.tables = s.tables ∧ s1.udEnv = s.udEnv ∧
      s1.stack = s.stack := by
  refine ⟨_, start_started_mode s loop w loop_i watcher_i d href, ?_⟩
  rcases daemonBit_cases s w with h | h <;> cases d
  · simp [h, modeOf]
  · have hne : ¬ ((0 : Int) = 1) := by decide
    simp only [h, modeOf, if_true, hne, if_false]
    refine ⟨by simp [set_flags, ev_unref]; omega,
      daemonBit_or _ w (s.wdata w).flags (by simp [set_flags]),
      by simp [set_flags, ev_unref], rfl, rfl, rfl, rfl⟩
  · have hne : ¬ ((1 : Int) = 0) := by decide
    have hft : ¬ (false = true) := by decide
    simp only [h, modeOf, hft, hne, if_false]
    refine ⟨by simp [set_flags, ev_ref],
      daemonBit_clear _ w (s.wdata w).flags (by simp [set_flags]),
      by simp [set_flags, ev_ref], rfl, rfl, rfl, rfl⟩
  · simp [h, modeOf]

/-- C4: loop_start_watcher with an explicit daemon mode d on a watcher that is
already started changes the activecnt of the loop by -1 when the watcher was
not a daemon and d is true, by +1 when it was a daemon and d is false, and
not at all when d equals the IS_DAEMON bit; afterwards the bit equals d, and
watcher_ref and the registry are unchanged. Starting a stopped watcher as a
daemon and then again as a non-daemon leaves the activecnt at its initial
value with the bit clear. -/
theorem restart_adjusts_daemon_status :
    (∀ (s : State) (loop w : Nat) (loop_i watcher_i : Int) (d : Bool),
      (s.wdata w).watcher_ref ≠ LUA_NOREF →
      ∃ s1, loop_start_watcher loop w loop_i watcher_i (modeOf d) s = Except.ok s1 ∧
        (daemonBit s w = 0 → d = true → s1.activecnt loop = s.activecnt loop - 1) ∧
        (daemonBit s w = 1 → d = false → s1.activecnt loop = s.activecnt loop + 1) ∧
        (daemonBit s w = modeOf d → s1.activecnt loop = s.activecnt loop) ∧
        daemonBit s1 w = modeOf d ∧
        (s1.wdata w).watcher_ref = (s.wdata w).watcher_ref ∧
        s1.registry = s.registry) ∧
    (∀ (s : State) (loop w : Nat) (loop_i watcher_i : Int) (lh : Nat),
      0 < watcher_i → 0 < loop_i →
      stackAt s.stack watcher_i = TValue.userdata w →
      stackAt s.stack loop_i = TValue.userdata lh →
      (s.wdata w).watcher_ref = LUA_NOREF →
      ∃ s1 s2, loop_start_watcher loop w loop_i watcher_i (modeOf true) s = Except.ok s1 ∧
        loop_start_watcher loop w loop_i watcher_i (modeOf false) s1 = Except.ok s2 ∧
        s2.activecnt loop = s.activecnt loop ∧ daemonBit s2 w = 0) := by
  constructor
  · intro s loop w loop_i watcher_i d href
    obtain ⟨s1, h1, hc, hb, hr, hreg, _⟩ := start_started_effect s loop w loop_i watcher_i d href
    refine ⟨s1, h1, ?_, ?_, ?_, hb, hr, hreg⟩
    · intro h0 hd
      rw [hc, h0, hd]
      simp [modeOf]
      omega
    · intro h0 hd
      rw [hc, h0, hd]
      simp [modeOf]
    · intro h0
      rw [hc, h0]
      simp
  · intro s loop w loop_i watcher_i lh hwi hli hw hl href
    obtain ⟨s1, h1, hne, _, _, _, _, hc1, _, hb1⟩ :=
      start_stopped_effect s loop w loop_i watcher_i lh true hwi hli hw hl href
    obtain ⟨s2, h2, hc2, hb2, _⟩ := start_started_effect s1 loop w loop_i watcher_i false hne
    refine ⟨s1, s2, h1, h2, ?_, ?_⟩
    · rw [hc2, hc1, hb1]
      simp [modeOf]
    · rw [hb2]
      rfl

theorem restart_adjusts_daemon_status_witness :
    (∃ s1, loop_start_watcher 5 20 2 1 (modeOf true) exStarted = Except.ok s1 ∧
        (daemonBit exStarted 20 = 0 → true = true →
          s1.activecnt 5 = exStarted.activecnt 5 - 1) ∧
        (daemonBit exStarted 20 = 1 → true = false →
          s1.activecnt 5 = exStarted.activecnt 5 + 1) ∧
        (daemonBit exStarted 20 = modeOf true → s1.activecnt 5 = exStarted.activecnt 5) ∧
        daemonBit s1 20 = modeOf true ∧
        (s1.wdata 20).watcher_ref = (exStarted.wdata 20).watcher_ref ∧
        s1.registry = exStarted.registry) ∧
    (∃ s1 s2, loop_start_watcher 5 20 2 1 (modeOf true) exState = Except.ok s1 ∧
        loop_start_watcher 5 20 2 1 (modeOf false) s1 = Except.ok s2 ∧
        s2.activecnt 5 = exState.activecnt 5 ∧ daemonBit s2 20 = 0) :=
  ⟨restart_adjusts_daemon_status.1 exStarted 5 20 2 1 true (by decide),
   restart_adjusts_daemon_status.2 exState 5 20 2 1 10 (by decide) (by decide) (by decide)
     (by decide) (by decide)⟩

/-- An explicit re-start of a started watcher touches the activecnt of no
other loop and the header of no other watcher. -/
theorem start_started_others (s : State) (loop w : Nat) (loop_i watcher_i : Int) (d : Bool)
    (href : (s.wdata w).watcher_ref ≠ LUA_NOREF) :
    ∃ s1, loop_start_watcher loop w loop_i watcher_i (modeOf d) s = Except.ok s1 ∧
      (∀ l, l ≠ loop → s1.activecnt l = s.activecnt l) ∧
      (∀ u, u ≠ w → s1.wdata u = s.wdata u) := by
  refine ⟨_, start_started_mode s loop w loop_i watcher_i d href, ?_, ?_⟩
  · intro l hl
    split_ifs <;> simp [set_flags, ev_unref, ev_ref, Function.update_noteq hl]
  · intro u hu
    split_ifs <;> simp [set_flags, ev_unref, ev_ref, Function.update_noteq hu]

/-- Net effect of a sequence of explicit re-starts of a started watcher: the
activecnt of the loop moves by the IS_DAEMON bit before minus the bit after,
the bit after is the last mode of the sequence, the empty sequence changes
nothing and no other loop is touched. -/
theorem startSeq_net (loop w : Nat) (loop_i watcher_i : Int) (ms : List Bool) :
    ∀ s : State, (s.wdata w).watcher_ref ≠ LUA_NOREF →
      ∃ s1, startSeq loop w loop_i watcher_i ms s = Except.ok s1 ∧
        s1.activecnt loop = s.activecnt loop + (daemonBit s w - daemonBit s1 w) ∧
        (s1.wdata w).watcher_ref = (s.wdata w).watcher_ref ∧
        (∀ d, ms.getLast? = some d → daemonBit s1 w = modeOf d) ∧
        (ms = [] → s1 = s) ∧
        (∀ l, l ≠ loop → s1.activecnt l = s.activecnt l) := by
  induction ms with
  | nil =>
    intro s href
    exact ⟨s, rfl, by simp, rfl, by simp, fun _ => rfl, fun _ _ => rfl⟩
  | cons d ds ih =>
    intro s href
    obtain ⟨s1, h1, hc, hb, hr, _⟩ := start_started_effect s loop w loop_i watcher_i d href
    obtain ⟨s1', h1', ho, _⟩ := start_started_others s loop w loop_i watcher_i d href
    have hs : s1' = s1 := by
      rw [h1] at h1'
      injection h1' with h
      exact h.symm
    subst hs
    have href1 : (s1'.wdata w).watcher_ref ≠ LUA_NOREF := by rw [hr]; exact href
    obtain ⟨s2, h2, hc2, hr2, hl2, he2, ho2⟩ := ih s1' href1
    refine ⟨s2, ?_, ?_, by rw [hr2, hr], ?_, by simp, ?_⟩
    · simp [startSeq, h1, h2]
    · rw [hc2, hc, hb]
      ring
    · intro d' hd'
      cases ds with
      | nil =>
        have h21 : s2 = s1' := he2 rfl
        simp at hd'
        rw [h21, hb, hd']
      | cons e es =>
        rw [List.getLast?_cons_cons] at hd'
        exact hl2 d' hd'
    · intro l hl
      rw [ho2 l hl, ho l hl]

/-- C5: N successive loop_start_watcher calls with explicit daemon modes on a
started watcher and one loop succeed and change the activecnt of the loop by
the IS_DAEMON bit before the sequence minus the bit after it, hence by at
most 1 in absolute value whatever N is. When N is positive the bit after the
sequence is the last mode, so the activecnt ends at its initial value plus the
initial bit minus the last mode; the empty sequence changes nothing, and the
activecnt of every other loop is unchanged. Starting as a daemon twice in a
row: the first call sets the bit and, when the watcher was not a daemon,
lowers the activecnt by one; the second call changes nothing at all, so the
two calls together move the activecnt by one (from a non-daemon) and give the
same state as one call. -/
theorem daemon_toggles_count_transitions (s : State) (loop w : Nat) (loop_i watcher_i : Int)
    (ms : List Bool) (href : (s.wdata w).watcher_ref ≠ LUA_NOREF) :
    (∃ s1, startSeq loop w loop_i watcher_i ms s = Except.ok s1 ∧
      s1.activecnt loop - s.activecnt loop = daemonBit s w - daemonBit s1 w ∧
      |s1.activecnt loop - s.activecnt loop| ≤ 1 ∧
      (∀ d, ms.getLast? = some d →
        daemonBit s1 w = modeOf d ∧
        s1.activecnt loop = s.activecnt loop + (daemonBit s w - modeOf d)) ∧
      (ms = [] → s1 = s) ∧
      (∀ l, l ≠ loop → s1.activecnt l = s.activecnt l)) ∧
    (∃ s1, loop_start_watcher loop w loop_i watcher_i (modeOf true) s = Except.ok s1 ∧
      loop_start_watcher loop w loop_i watcher_i (modeOf true) s1 = Except.ok s1 ∧
      startSeq loop w loop_i watcher_i [true, true] s = Except.ok s1 ∧
      daemonBit s1 w = 1 ∧
      (daemonBit s w = 0 → s1.activecnt loop = s.activecnt loop - 1) ∧
      (daemonBit s w = 1 → s1 = s)) ∧
    startSeq loop w loop_i watcher_i [true, true] s =
      startSeq loop w loop_i watcher_i [true] s := by
  obtain ⟨t1, g1, gc, gb, gr, _⟩ := start_started_effect s loop w loop_i watcher_i true href
  have gref : (t1.wdata w).watcher_ref ≠ LUA_NOREF := by rw [gr]; exact href
  have g2 := start_started_mode t1 loop w loop_i watcher_i true gref
  simp only [gb, if_true] at g2
  have gm := start_started_mode s loop w loop_i watcher_i true href
  refine ⟨?_, ⟨t1, g1, g2, by simp [startSeq, g1, g2], by rw [gb]; rfl, ?_, ?_⟩,
    by simp [startSeq, g1, g2]⟩
  · obtain ⟨s1, h1, hc, _, hl, he, ho⟩ := startSeq_net loop w loop_i watcher_i ms s href
    refine ⟨s1, h1, by rw [hc]; ring, ?_, ?_, he, ho⟩
    · rw [hc]
      rcases daemonBit_cases s w with h | h <;> rcases daemonBit_cases s1 w with h' | h' <;>
        simp [h, h']
    · intro d hd
      refine ⟨hl d hd, ?_⟩
      rw [hc, hl d hd]
  · intro h0
    rw [gc, h0]
    simp [modeOf]
    omega
  · intro h1
    have hm : daemonBit s w = modeOf true := by rw [h1]; rfl
    rw [gm] at g1
    simp only [hm, if_true] at g1
    injection g1 with h
    exact h.symm

theorem daemon_toggles_count_transitions_witness :
    (∃ s1, startSeq 5 20 2 1 [true, true, false, true] exStarted = Except.ok s1 ∧
      s1.activecnt 5 - exStarted.activecnt 5 = daemonBit exStarted 20 - daemonBit s1 20 ∧
      |s1.activecnt 5 - exStarted.activecnt 5| ≤ 1 ∧
      (∀ d, [true, true, false, true].getLast? = some d →
        daemonBit s1 20 = modeOf d ∧
        s1.activecnt 5 = exStarted.activecnt 5 + (daemonBit exStarted 20 - modeOf d)) ∧
      ([true, true, false, true] = [] → s1 = exStarted) ∧
      (∀ l, l ≠ 5 → s1.activecnt l = exStarted.activecnt l)) ∧
    (∃ s1, loop_start_watcher 5 20 2 1 (modeOf true) exStarted = Except.ok s1 ∧
      loop_start_watcher 5 20 2 1 (modeOf true) s1 = Except.ok s1 ∧
      startSeq 5 20 2 1 [true, true] exStarted = Except.ok s1 ∧
      daemonBit s1 20 = 1 ∧
      (daemonBit exStarted 20 = 0 → s1.activecnt 5 = exStarted.activecnt 5 - 1) ∧
      (daemonBit exStarted 20 = 1 → s1 = exStarted)) ∧
    startSeq 5 20 2 1 [true, true] exStarted = startSeq 5 20 2 1 [true] exStarted :=
  daemon_toggles_count_transitions exStarted 5 20 2 1 [true, true, false, true] (by decide)


/-- C6 (what the code does): the watcher 20 of exState is started
as a daemon on the loop 5, stopped, and started again with the inherit mode
-1. The stop left IS_DAEMON set, so the inherit start resolves to daemon: the
activecnt of the loop ends one below its initial value and IS_DAEMON is set. -/
theorem inherit_start_reuses_stale_daemon_bit :
    ∃ s1, runCalls 20
        [LifecycleCall.start exState.stack 5 2 1 1,
         LifecycleCall.stop exState.stack 5 1,
         LifecycleCall.start exState.stack 5 2 1 (-1)] exState = Except.ok s1 ∧
      s1.activecnt 5 = exState.activecnt 5 - 1 ∧ daemonBit s1 20 = 1 := by
  refine ⟨_, rfl, ?_, ?_⟩
  · decide
  · decide

/-- A watcher as watcher_new returns it holds no reference and records no
owning loop. -/
theorem watcher_new_unstarted (s s0 : State) (size lua_type w : Nat)
    (h : watcher_new size lua_type s = Except.ok (w, s0)) :
    (s0.wdata w).watcher_ref = LUA_NOREF ∧ ownerLoop s0 w = TValue.nil := by
  have h1 : index2adr s 1 = Except.ok (stackAt s.stack 1) := index2adr_pos s 1 (by decide)
  unfold watcher_new luaL_checktype_function at h
  rw [h1] at h
  cases hf : stackAt s.stack 1 with
  | func f =>
    have hf2 : ∀ x y, stackAt (x :: y :: s.stack) 1 = TValue.func f := fun x y =>
      stackAt_cons _ _ _ _ (stackAt_cons _ _ _ _ hf (by simp)) (by simp)
    cases hm : tget s.registry (TValue.lightuserdata lua_type) with
    | nil =>
      simp [hf, hm, hf2, obj_new, lua_newuserdata, lua_ev_getmetatable, lua_pushlightuserdata,
        push, lua_rawget, index2adr, LUA_REGISTRYINDEX, getTable, setTable, lua_setmetatable,
        lua_createtable, lua_pushvalue, index2adr_pos, lua_rawseti, lua_setfenv,
        set_watcher_ref, set_flags, bind, Except.bind, pure, Except.pure] at h
      obtain ⟨hw, hs⟩ := h
      subst hw
      subst hs
      simp only [ownerLoop]
      erw [Function.update_same, Function.update_same]
      simp [tget, tset, terase, WATCHER_FN, WATCHER_LOOP]
    | table m =>
      simp [hf, hm, hf2, obj_new, lua_newuserdata, lua_ev_getmetatable, lua_pushlightuserdata,
        push, lua_rawget, index2adr, LUA_REGISTRYINDEX, getTable, setTable, lua_setmetatable,
        lua_createtable, lua_pushvalue, index2adr_pos, lua_rawseti, lua_setfenv,
        set_watcher_ref, set_flags, bind, Except.bind, pure, Except.pure] at h
      obtain ⟨hw, hs⟩ := h
      subst hw
      subst hs
      simp only [ownerLoop]
      erw [Function.update_same, Function.update_same]
      simp [tget, tset, terase, WATCHER_FN, WATCHER_LOOP]
    | _ =>
      simp [hf, hm, obj_new, lua_newuserdata, lua_ev_getmetatable, lua_pushlightuserdata,
        push, lua_rawget, index2adr, LUA_REGISTRYINDEX, getTable, lua_setmetatable,
        bind, Except.bind, pure, Except.pure, throw, throwThe, MonadExceptOf.throw] at h
  | _ => simp [hf, bind, Except.bind, throw, throwThe, MonadExceptOf.throw] at h

/-- The lifecycle invariant: a reference is held exactly when an owning loop
is recorded. -/
theorem runCall_keeps_ref_iff_owner (w : Nat) (c : LifecycleCall) (s : State)
    (hc : ownIndex w c = true)
    (hinv : (s.wdata w).watcher_ref ≠ LUA_NOREF ↔ ownerLoop s w ≠ TValue.nil) :
    ∃ s1, runCall w c s = Except.ok s1 ∧
      ((s1.wdata w).watcher_ref ≠ LUA_NOREF ↔ ownerLoop s1 w ≠ TValue.nil) := by
  cases c with
  | start stk loop loop_i watcher_i is_daemon =>
    simp only [ownIndex, Bool.and_eq_true, decide_eq_true_eq] at hc
    obtain ⟨⟨⟨hwi, hw⟩, hli⟩, hl⟩ := hc
    by_cases href : (s.wdata w).watcher_ref = LUA_NOREF
    · cases hlv : stackAt stk loop_i with
      | userdata lh =>
        refine ⟨_, start_stopped { s with stack := stk } loop w loop_i watcher_i
          (TValue.userdata lh) is_daemon hwi hli hw hlv (by simp) href, ?_⟩
        have hpos := freshRef_pos s.registry
        have hne : freshRef s.registry ≠ LUA_NOREF := by simp [LUA_NOREF]; omega
        simp [ownerLoop, tget_tset_same, hne]
      | _ => simp [hlv, isUserdata] at hl
    · refine ⟨_, start_started { s with stack := stk } loop w loop_i watcher_i is_daemon href, ?_⟩
      have hinv2 : (s.wdata w).watcher_ref ≠ LUA_NOREF ↔
          tget (s.tables (s.udEnv w)) (TValue.number WATCHER_LOOP) ≠ TValue.nil := hinv
      split_ifs <;> simpa [ownerLoop, set_flags, ev_ref, ev_unref] using hinv2
  | stop stk loop watcher_i =>
    simp only [ownIndex, Bool.and_eq_true, decide_eq_true_eq] at hc
    obtain ⟨hwi, hw⟩ := hc
    by_cases href : (s.wdata w).watcher_ref = LUA_NOREF
    · refine ⟨_, stop_stopped { s with stack := stk } loop w watcher_i href, ?_⟩
      exact hinv
    · refine ⟨_, stop_started { s with stack := stk } loop w watcher_i w hwi hw href, ?_⟩
      simp [ownerLoop, tget_tset_same]

theorem runCalls_keep_ref_iff_owner (w : Nat) (cs : List LifecycleCall) :
    ∀ s : State, (∀ c ∈ cs, ownIndex w c = true) →
      ((s.wdata w).watcher_ref ≠ LUA_NOREF ↔ ownerLoop s w ≠ TValue.nil) →
      ∃ s1, runCalls w cs s = Except.ok s1 ∧
        ((s1.wdata w).watcher_ref ≠ LUA_NOREF ↔ ownerLoop s1 w ≠ TValue.nil) := by
  induction cs with
  | nil =>
    intro s _ hinv
    exact ⟨s, rfl, hinv⟩
  | cons c cs ih =>
    intro s hcs hinv
    obtain ⟨s1, h1, hinv1⟩ :=
      runCall_keeps_ref_iff_owner w c s (hcs c (List.mem_cons_self c cs)) hinv
    obtain ⟨s2, h2, hinv2⟩ := ih s1 (fun x hx => hcs x (List.mem_cons_of_mem c hx)) hinv1
    exact ⟨s2, by simp [runCalls, h1, h2], hinv2⟩

/-- C7: from the state watcher_new returns, every finite sequence of
loop_start_watcher and loop_stop_watcher calls that pass the stack index of
the watcher (and, for a start, of a loop handle) succeeds, and in the state
it reaches the watcher holds a reference (watcher_ref is not LUA_NOREF) if and
only if the owning-loop entry of its fenv is present. -/
theorem ref_held_iff_owner_recorded (s s0 : State) (size lua_type w : Nat)
    (cs : List LifecycleCall)
    (hnew : watcher_new size lua_type s = Except.ok (w, s0))
    (hcs : ∀ c ∈ cs, ownIndex w c = true) :
    ∃ s1, runCalls w cs s0 = Except.ok s1 ∧
      ((s1.wdata w).watcher_ref ≠ LUA_NOREF ↔ ownerLoop s1 w ≠ TValue.nil) := by
  obtain ⟨hr, ho⟩ := watcher_new_unstarted s s0 size lua_type w hnew
  exact runCalls_keep_ref_iff_owner w cs s0 hcs (by simp [hr, ho])

theorem ref_held_iff_owner_recorded_witness :
    watcher_new 64 3 exNewFrame = Except.ok (21, exNew) ∧
    ∃ s1, runCalls 21
        [LifecycleCall.start [TValue.userdata 10, TValue.userdata 21] 5 2 1 1,
         LifecycleCall.start [TValue.userdata 10, TValue.userdata 21] 5 2 1 (-1),
         LifecycleCall.stop [TValue.userdata 21] 5 1] exNew = Except.ok s1 ∧
      ((s1.wdata 21).watcher_ref ≠ LUA_NOREF ↔ ownerLoop s1 21 ≠ TValue.nil) :=
  ⟨rfl, ref_held_iff_owner_recorded exNewFrame exNew 64 3 21 _ rfl (by decide)⟩

/-- C8 (counterexample): the watcher 20 of exState is started on the loop 5,
whose handle 10 is at index 2, and then, with no stop in between, on the loop
6, whose handle 11 is at index 3. The recorded owning loop is still the
handle 10 of the first start, not the handle 11 of the most recent one. -/
theorem second_start_keeps_first_owner :
    ∃ s1 s2, loop_start_watcher 5 20 2 1 0 exState = Except.ok s1 ∧
      loop_start_watcher 6 20 3 1 0 s1 = Except.ok s2 ∧
      ownerLoop s2 20 = TValue.userdata 10 ∧ ownerLoop s2 20 ≠ TValue.userdata 11 := by
  refine ⟨_, _, rfl, rfl, ?_, ?_⟩
  · decide
  · decide

/-- C8 (amended): the owning-loop entry is written only by the start that
takes the watcher from stopped to started. After loop_start_watcher with the
handle lh1 on a stopped watcher, followed by loop_start_watcher with any loop,
any indices and any mode with no stop in between, the recorded owning loop is
lh1. -/
theorem owner_is_loop_of_first_start (s : State) (loop1 loop2 w : Nat)
    (loop_i1 watcher_i1 loop_i2 watcher_i2 : Int) (lh1 : Nat) (d1 d2 : Int)
    (hwi : 0 < watcher_i1) (hli : 0 < loop_i1)
    (hw : stackAt s.stack watcher_i1 = TValue.userdata w)
    (hl : stackAt s.stack loop_i1 = TValue.userdata lh1)
    (href : (s.wdata w).watcher_ref = LUA_NOREF) :
    ∃ s1 s2, loop_start_watcher loop1 w loop_i1 watcher_i1 d1 s = Except.ok s1 ∧
      loop_start_watcher loop2 w loop_i2 watcher_i2 d2 s1 = Except.ok s2 ∧
      ownerLoop s1 w = TValue.userdata lh1 ∧ ownerLoop s2 w = TValue.userdata lh1 := by
  have h1 := start_stopped s loop1 w loop_i1 watcher_i1 (TValue.userdata lh1) d1
    hwi hli hw hl (by simp) href
  have hpos := freshRef_pos s.registry
  have hne : freshRef s.registry ≠ LUA_NOREF := by simp [LUA_NOREF]; omega
  refine ⟨_, _, h1, start_started _ loop2 w loop_i2 watcher_i2 d2 (by simpa using hne), ?_, ?_⟩
  · simp [ownerLoop, tget_tset_same]
  · split_ifs <;> simp [ownerLoop, set_flags, ev_ref, ev_unref, tget_tset_same]

theorem owner_is_loop_of_first_start_witness :
    ∃ s1 s2, loop_start_watcher 5 20 2 1 0 exState = Except.ok s1 ∧
      loop_start_watcher 6 20 3 1 1 s1 = Except.ok s2 ∧
      ownerLoop s1 20 = TValue.userdata 10 ∧ ownerLoop s2 20 = TValue.userdata 10 :=
  owner_is_loop_of_first_start exState 5 6 20 2 1 3 1 10 0 1 (by decide) (by decide)
    (by decide) (by decide) (by decide)


/-! ## Dispatch -/

/-- The state at the protected call when the native watcher is still active:
only the stack has changed. -/
theorem enter_active (s : State) (loop w : Nat) (r : Int)
    (hact : s.active w = true)
    (hreg : tget s.registry (TValue.number (s.wdata w).watcher_ref) = TValue.userdata w) :
    watcher_cb_enter loop w r s = Except.ok
      { s with
        stack := TValue.number r :: TValue.userdata w :: ownerLoop s w :: callbackOf s w ::
          tget s.registry (TValue.lightuserdata traceback_key) :: s.stack } := by
  simp [watcher_cb_enter, push_traceback, lua_gettable, lua_rawget, lua_pushlightuserdata, push,
    index2adr, LUA_REGISTRYINDEX, getTable, lua_rawgeti, hreg, lua_getfenv, lua_insert, lua_pop,
    hact, lua_pushinteger, ownerLoop, callbackOf, bind, Except.bind, pure, Except.pure]

/-- The state at the protected call when the native watcher is no longer
active: loop_stop_watcher has run with the stack index 1, which holds the
userdata u. -/
theorem enter_inactive (s : State) (loop w : Nat) (r : Int) (u : Nat)
    (hact : s.active w = false)
    (href : (s.wdata w).watcher_ref ≠ LUA_NOREF)
    (hreg : tget s.registry (TValue.number (s.wdata w).watcher_ref) = TValue.userdata w)
    (h1 : stackAt s.stack 1 = TValue.userdata u) :
    watcher_cb_enter loop w r s = Except.ok
      { s with
        stack := TValue.number r :: TValue.userdata w :: ownerLoop s w :: callbackOf s w ::
          tget s.registry (TValue.lightuserdata traceback_key) :: s.stack
        registry :=
          if 0 ≤ (s.wdata w).watcher_ref then
            tset s.registry (TValue.number (s.wdata w).watcher_ref) TValue.nil
          else s.registry
        tables := Function.update s.tables (s.udEnv u)
          (tset (s.tables (s.udEnv u)) (TValue.number WATCHER_LOOP) TValue.nil)
        wdata := Function.update s.wdata w
          { watcher_ref := LUA_NOREF, flags := (s.wdata w).flags }
        activecnt :=
          if (s.wdata w).flags &&& WATCHER_FLAG_IS_DAEMON ≠ 0 then
            Function.update s.activecnt loop (s.activecnt loop + 1)
          else s.activecnt } := by
  have h4 : ∀ a b c d, stackAt (a :: b :: c :: d :: s.stack) 1 = TValue.userdata u :=
    fun a b c d => stackAt_cons _ _ _ _ (stackAt_cons _ _ _ _ (stackAt_cons _ _ _ _
      (stackAt_cons _ _ _ _ h1 (by simp)) (by simp)) (by simp)) (by simp)
  have hs := stop_started
    { s with
      stack := TValue.userdata w :: ownerLoop s w :: callbackOf s w ::
        tget s.registry (TValue.lightuserdata traceback_key) :: s.stack }
    loop w 1 u (by decide) (h4 _ _ _ _) href
  simp only [ownerLoop, callbackOf] at hs
  simp [watcher_cb_enter, push_traceback, lua_gettable, lua_rawget, lua_pushlightuserdata, push,
    index2adr, LUA_REGISTRYINDEX, getTable, lua_rawgeti, hreg, lua_getfenv, lua_insert, lua_pop,
    hact, hs, lua_pushinteger, ownerLoop, callbackOf, bind, Except.bind, pure, Except.pure]

/-- C9 (what the code does): dispatch of the watcher 20 from the
frame of loop_loop, after the native loop stopped it. loop_stop_watcher called
with the index of the watcher clears the owning-loop entry of the fenv of the
watcher. watcher_cb passes the stack index 1, which holds the loop handle 10:
the reference is released, but at the protected call the fenv of the watcher
still records its owning loop, and the entry 2 of the environment table of
the loop handle has been removed instead. -/
theorem auto_stop_clears_fenv_of_index_one :
    ∃ s1 s2, watcher_cb_enter 5 20 256 exDispatch = Except.ok s1 ∧
      loop_stop_watcher 5 20 1 exStarted = Except.ok s2 ∧
      (s1.wdata 20).watcher_ref = LUA_NOREF ∧
      ownerLoop s2 20 = TValue.nil ∧
      ownerLoop s1 20 = TValue.userdata 10 ∧
      tget (exDispatch.tables (exDispatch.udEnv 10)) (TValue.number 2) = TValue.str ("two") ∧
      tget (s1.tables (s1.udEnv 10)) (TValue.number 2) = TValue.nil := by
  refine ⟨_, _, rfl, rfl, ?_, ?_, ?_, ?_, ?_⟩ <;> decide

/-- The protected call of watcher_cb and what follows it, from the state
watcher_cb_enter leaves. -/
theorem watcher_cb_of_enter (host : Host) (s s1 : State) (loop w : Nat) (r : Int)
    (a b c tb : TValue)
    (h : watcher_cb_enter loop w r s = Except.ok s1)
    (hstk : s1.stack = TValue.number r :: a :: b :: c :: tb :: s.stack) :
    watcher_cb host loop w r s =
      match host c [b, a, TValue.number r] { s1 with stack := [TValue.number r, a, b] } with
      | Outcome.returned _ s2 => Except.ok { s2 with stack := s.stack }
      | Outcome.raised err s2 =>
        match host tb [err] { s2 with stack := [err] } with
        | Outcome.returned rs s3 =>
          Except.ok { s3 with
            stack := s.stack
            stderr := s3.stderr ++
              ["CALLBACK FAILED: " ++ tostringValue (rs.headD TValue.nil) ++ "\n"] }
        | Outcome.raised e2 s3 =>
          Except.ok { s3 with
            stack := s.stack
            stderr := s3.stderr ++ ["CALLBACK FAILED: " ++ tostringValue e2 ++ "\n"] } := by
  simp only [watcher_cb, h, bind, Except.bind]
  simp only [lua_pcall, index2adr, hstk, LUA_REGISTRYINDEX, bind, Except.bind, pure, Except.pure]
  simp
  cases host c [b, a, TValue.number r] { s1 with stack := [TValue.number r, a, b] } with
  | returned rs s2 => simp [lua_pop]
  | raised err s2 =>
    simp
    cases host tb [err] { s2 with stack := [err] } with
    | returned rs s3 => simp [lua_pop, lua_tostring, index2adr, LUA_REGISTRYINDEX]
    | raised e2 s3 => simp [lua_pop, lua_tostring, index2adr, LUA_REGISTRYINDEX]

/-- C11: for a started watcher dispatched from a frame whose index 1 holds a
userdata, and for every behaviour of the host functions, watcher_cb returns
normally with the stack it was entered with. When the callback returns, the
rest of the state is the one the callback left. When the callback raises, the
rest of the state is the one the traceback handler left (registry, watcher
headers and fenv tables included), except that one line made of the text
CALLBACK FAILED and the error message is appended to stderr. -/
theorem callback_failure_is_isolated (s : State) (loop w : Nat) (r : Int) (lh : Nat)
    (host : Host)
    (href : (s.wdata w).watcher_ref ≠ LUA_NOREF)
    (hreg : tget s.registry (TValue.number (s.wdata w).watcher_ref) = TValue.userdata w)
    (h1 : stackAt s.stack 1 = TValue.userdata lh) :
    ∃ s1 sf, watcher_cb_enter loop w r s = Except.ok s1 ∧
      watcher_cb host loop w r s = Except.ok sf ∧
      sf.stack = s.stack ∧
      (∀ rs s2,
        host (callbackOf s w) [ownerLoop s w, TValue.userdata w, TValue.number r]
          { s1 with stack := [TValue.number r, TValue.userdata w, ownerLoop s w] } =
          Outcome.returned rs s2 →
        sf = { s2 with stack := s.stack }) ∧
      (∀ err s2,
        host (callbackOf s w) [ownerLoop s w, TValue.userdata w, TValue.number r]
          { s1 with stack := [TValue.number r, TValue.userdata w, ownerLoop s w] } =
          Outcome.raised err s2 →
        ∃ msg s3,
          ((∃ rs, host (tget s.registry (TValue.lightuserdata traceback_key)) [err]
              { s2 with stack := [err] } = Outcome.returned rs s3 ∧
              msg = rs.headD TValue.nil) ∨
            host (tget s.registry (TValue.lightuserdata traceback_key)) [err]
              { s2 with stack := [err] } = Outcome.raised msg s3) ∧
          sf = { s3 with
            stack := s.stack
            stderr := s3.stderr ++ ["CALLBACK FAILED: " ++ tostringValue msg ++ "\n"] } ∧
          sf.wdata = s3.wdata ∧ sf.registry = s3.registry ∧ sf.tables = s3.tables ∧
          sf.udEnv = s3.udEnv ∧ sf.activecnt = s3.activecnt) := by
  have henter : ∃ s1, watcher_cb_enter loop w r s = Except.ok s1 ∧
      s1.stack = TValue.number r :: TValue.userdata w :: ownerLoop s w :: callbackOf s w ::
        tget s.registry (TValue.lightuserdata traceback_key) :: s.stack := by
    by_cases hact : s.active w = true
    · exact ⟨_, enter_active s loop w r hact hreg, rfl⟩
    · have hact2 : s.active w = false := by simpa using hact
      exact ⟨_, enter_inactive s loop w r lh hact2 href hreg h1, rfl⟩
  obtain ⟨s1, he, hstk⟩ := henter
  have hcb := watcher_cb_of_enter host s s1 loop w r _ _ _ _ he hstk
  cases hc : host (callbackOf s w) [ownerLoop s w, TValue.userdata w, TValue.number r]
      { s1 with stack := [TValue.number r, TValue.userdata w, ownerLoop s w] } with
  | returned rs s2 =>
    rw [hc] at hcb
    refine ⟨s1, _, he, hcb, rfl, ?_, ?_⟩
    · intro rs' s2' h
      rw [hc] at h
      injection h with _ h2
      rw [h2]
    · intro err s2' h
      rw [hc] at h
      exact Outcome.noConfusion h
  | raised err s2 =>
    rw [hc] at hcb
    cases hh : host (tget s.registry (TValue.lightuserdata traceback_key)) [err]
        { s2 with stack := [err] } with
    | returned rs s3 =>
      simp only [hh] at hcb
      refine ⟨s1, _, he, hcb, rfl, ?_, ?_⟩
      · intro rs' s2' h
        rw [hc] at h
        exact Outcome.noConfusion h
      · intro err' s2' h
        rw [hc] at h
        injection h with h1' h2'
        subst h1'
        subst h2'
        exact ⟨rs.headD TValue.nil, s3, Or.inl ⟨rs, hh, rfl⟩, rfl, rfl, rfl, rfl, rfl, rfl⟩
    | raised e2 s3 =>
      simp only [hh] at hcb
      refine ⟨s1, _, he, hcb, rfl, ?_, ?_⟩
      · intro rs' s2' h
        rw [hc] at h
        exact Outcome.noConfusion h
      · intro err' s2' h
        rw [hc] at h
        injection h with h1' h2'
        subst h1'
        subst h2'
        exact ⟨e2, s3, Or.inr hh, rfl, rfl, rfl, rfl, rfl, rfl⟩

theorem callback_failure_is_isolated_witness :
    (exDispatch.wdata 20).watcher_ref ≠ LUA_NOREF ∧
    stackAt exDispatch.stack 1 = TValue.userdata 10 ∧
    ∃ s1 sf, watcher_cb_enter 5 20 256 exDispatch = Except.ok s1 ∧
      watcher_cb exHost 5 20 256 exDispatch = Except.ok sf ∧
      sf.stack = exDispatch.stack :=
  ⟨by decide, by decide,
   (callback_failure_is_isolated exDispatch 5 20 256 10 exHost (by decide) (by decide)
      (by decide)).imp fun _ h => h.imp fun _ h2 => ⟨h2.1, h2.2.1, h2.2.2.1⟩⟩


/-! ## Handle validation -/

theorem touserdata_eq_addr (x : TValue) (p : Nat) (hp : p ≠ 0) :
    touserdata x = Ptr.addr p ↔ x = TValue.lightuserdata p := by
  cases x <;> simp [touserdata]
  case lightuserdata q =>
    by_cases hq : q = 0
    · subst hq
      simp
      exact fun h => hp h.symm
    · simp [hq]

theorem getTable_stack (s : State) (stk : List TValue) (r : TabRef) :
    getTable { s with stack := stk } r = getTable s r := by
  cases r <;> rfl

/-- Closed form of lua_ev_checkobject at a valid index. -/
theorem checkobject_eq (s : State) (idx : Int) (type_mt : Nat) (v : TValue)
    (hmt : type_mt ≠ 0) (hv : index2adr s idx = Except.ok v) :
    lua_ev_checkobject s idx type_mt =
      if hasMagic s v OBJ_TYPE_MAGIC_IDX type_mt = true then Except.ok (touserdata v, s)
      else Except.error (LuaError.typerror idx (cstring type_mt)) := by
  unfold lua_ev_checkobject lua_touserdata lua_getmetatable
  simp only [hv, bind, Except.bind, pure, Except.pure]
  cases v with
  | userdata u =>
    cases hm : s.udMeta u with
    | table m =>
      by_cases hmag : tget (getTable s m) (TValue.number OBJ_TYPE_MAGIC_IDX) =
          TValue.lightuserdata type_mt
      · have hp : touserdata (TValue.lightuserdata type_mt) = Ptr.addr type_mt := by
          simp [touserdata, hmt]
        have hb : touserdata (TValue.userdata u) ≠ Ptr.null := by simp [touserdata]
        simp [hasMagic, hm, hmag, hp, hb, getTable_stack, lua_rawgeti, index2adr, push, LUA_REGISTRYINDEX,
          lua_pop, bind, Except.bind, pure, Except.pure]
      · have hne := mt (touserdata_eq_addr _ type_mt hmt).1 hmag
        have hb : touserdata (TValue.userdata u) ≠ Ptr.null := by simp [touserdata]
        simp [hasMagic, hm, hmag, hne, hb, getTable_stack, lua_rawgeti, index2adr, push,
          LUA_REGISTRYINDEX, luaL_typerror, throw, throwThe, MonadExceptOf.throw,
          bind, Except.bind, pure, Except.pure]
    | _ =>
      simp [hasMagic, hm, touserdata, luaL_typerror, throw, throwThe, MonadExceptOf.throw]
  | lightuserdata p =>
    by_cases hp : p = 0 <;>
    simp [hasMagic, touserdata, hp, luaL_typerror, throw, throwThe, MonadExceptOf.throw]
  | _ => simp [hasMagic, touserdata, luaL_typerror, throw, throwThe, MonadExceptOf.throw]

/-- Closed form of check_watcher at a valid index. -/
theorem check_watcher_eq (s : State) (idx : Int) (v : TValue)
    (hv : index2adr s idx = Except.ok v) :
    check_watcher s idx =
      if hasMagic s v WATCHER_TYPE_MAGIC_IDX watcher_magic = true then
        Except.ok (touserdata v, s)
      else Except.error (LuaError.typerror idx ("ev\x7bio,timer,signal,idle\x7d")) := by
  have hmt : watcher_magic ≠ 0 := by decide
  unfold check_watcher lua_touserdata lua_getmetatable
  simp only [hv, bind, Except.bind, pure, Except.pure]
  cases v with
  | userdata u =>
    cases hm : s.udMeta u with
    | table m =>
      by_cases hmag : tget (getTable s m) (TValue.number WATCHER_TYPE_MAGIC_IDX) =
          TValue.lightuserdata watcher_magic
      · have hp : touserdata (TValue.lightuserdata watcher_magic) = Ptr.addr watcher_magic := by
          simp [touserdata, hmt]
        have hb : touserdata (TValue.userdata u) ≠ Ptr.null := by simp [touserdata]
        simp [hasMagic, hm, hmag, hp, hb, getTable_stack, lua_rawgeti, index2adr, push, LUA_REGISTRYINDEX,
          lua_pop, bind, Except.bind, pure, Except.pure]
      · have hne := mt (touserdata_eq_addr _ watcher_magic hmt).1 hmag
        have hb : touserdata (TValue.userdata u) ≠ Ptr.null := by simp [touserdata]
        simp [hasMagic, hm, hmag, hne, hb, getTable_stack, lua_rawgeti, index2adr, push,
          LUA_REGISTRYINDEX, luaL_typerror, throw, throwThe, MonadExceptOf.throw,
          bind, Except.bind, pure, Except.pure]
    | _ =>
      simp [hasMagic, hm, touserdata, luaL_typerror, throw, throwThe, MonadExceptOf.throw]
  | lightuserdata p =>
    by_cases hp : p = 0 <;>
    simp [hasMagic, touserdata, hp, luaL_typerror, throw, throwThe, MonadExceptOf.throw]
  | _ => simp [hasMagic, touserdata, luaL_typerror, throw, throwThe, MonadExceptOf.throw]

/-- C15: at a valid index holding the value v, lua_ev_checkobject returns the
block of v, with the state it was given, exactly when v is a full userdata
whose metatable holds the light userdata of the expected type name in the
slot OBJ_TYPE_MAGIC_IDX; in every other case it raises the type error that
carries the index and the expected type name. -/
theorem checkobject_validates_handle (s : State) (idx : Int) (type_mt : Nat) (v : TValue)
    (hmt : type_mt ≠ 0) (hv : index2adr s idx = Except.ok v) :
    ((∃ u m, v = TValue.userdata u ∧ s.udMeta u = TValue.table m ∧
        tget (getTable s m) (TValue.number OBJ_TYPE_MAGIC_IDX) =
          TValue.lightuserdata type_mt) ↔
      ∃ u, v = TValue.userdata u ∧
        lua_ev_checkobject s idx type_mt = Except.ok (Ptr.block u, s)) ∧
    ((¬ ∃ u m, v = TValue.userdata u ∧ s.udMeta u = TValue.table m ∧
        tget (getTable s m) (TValue.number OBJ_TYPE_MAGIC_IDX) =
          TValue.lightuserdata type_mt) →
      lua_ev_checkobject s idx type_mt =
        Except.error (LuaError.typerror idx (cstring type_mt))) := by
  have heq := checkobject_eq s idx type_mt v hmt hv
  have hiff : hasMagic s v OBJ_TYPE_MAGIC_IDX type_mt = true ↔
      ∃ u m, v = TValue.userdata u ∧ s.udMeta u = TValue.table m ∧
        tget (getTable s m) (TValue.number OBJ_TYPE_MAGIC_IDX) =
          TValue.lightuserdata type_mt := by
    constructor
    · intro h
      cases v with
      | userdata u =>
        cases hm : s.udMeta u with
        | table m =>
          simp [hasMagic, hm] at h
          exact ⟨u, m, rfl, hm, h⟩
        | _ => simp [hasMagic, hm] at h
      | _ => simp [hasMagic] at h
    · rintro ⟨u, m, hu, hm, hg⟩
      subst hu
      simp [hasMagic, hm, hg]
  refine ⟨⟨?_, ?_⟩, ?_⟩
  · intro h
    have hmg := hiff.2 h
    obtain ⟨u, m, hu, _, _⟩ := h
    refine ⟨u, hu, ?_⟩
    rw [heq, if_pos hmg, hu]
    rfl
  · rintro ⟨u, hu, hok⟩
    by_cases hmg : hasMagic s v OBJ_TYPE_MAGIC_IDX type_mt = true
    · exact hiff.1 hmg
    · rw [heq, if_neg hmg] at hok
      exact Except.noConfusion hok
  · intro h
    rw [heq, if_neg (fun hmg => h (hiff.1 hmg))]

theorem checkobject_validates_handle_witness :
    (∃ u, TValue.userdata 20 = TValue.userdata u ∧
      lua_ev_checkobject { exSlot with stack := [TValue.userdata 10, TValue.userdata 20] } 1
        lua_ev_timer_mt =
        Except.ok (Ptr.block u,
          { exSlot with stack := [TValue.userdata 10, TValue.userdata 20] })) ∧
    lua_ev_checkobject { exSlot with stack := [TValue.userdata 10, TValue.userdata 20] } 2
      lua_ev_timer_mt = Except.error (LuaError.typerror 2 (cstring lua_ev_timer_mt)) :=
  ⟨(checkobject_validates_handle
      { exSlot with stack := [TValue.userdata 10, TValue.userdata 20] } 1 lua_ev_timer_mt
      (TValue.userdata 20) (by decide) rfl).1.1 ⟨20, TabRef.heap 3, rfl, rfl, by decide⟩,
   (checkobject_validates_handle
      { exSlot with stack := [TValue.userdata 10, TValue.userdata 20] } 2 lua_ev_timer_mt
      (TValue.userdata 10) (by decide) rfl).2 (by
        rintro ⟨u, m, hu, hm, hg⟩
        injection hu with hu
        subst hu
        have hm2 : m = TabRef.heap 6 := by
          have : TValue.table (TabRef.heap 6) = TValue.table m := hm
          injection this with h
          exact h.symm
        subst hm2
        revert hg
        decide)⟩


/-! ## The extension slot -/

theorem stackAt_one_1 (a : TValue) : stackAt [a] 1 = a := by
  simp [stackAt]

theorem stackAt_two_1 (a b : TValue) : stackAt [b, a] 1 = a := by
  simp [stackAt]

theorem stackAt_two_2 (a b : TValue) : stackAt [b, a] 2 = b := by
  simp [stackAt]

theorem stackAt_three_1 (a b c : TValue) : stackAt [c, b, a] 1 = a := by
  simp [stackAt]

theorem argFrame_1 (w : Nat) (arg : Option TValue) :
    stackAt (argFrame w arg) 1 = TValue.userdata w := by
  cases arg <;> simp [argFrame, stackAt]

theorem hasMagic_stack (s : State) (stk : List TValue) (v : TValue) (slot : Int)
    (magic : Nat) :
    hasMagic { s with stack := stk } v slot magic = hasMagic s v slot magic := by
  cases v <;> simp [hasMagic]
  case userdata u =>
    cases s.udMeta u <;> simp [getTable_stack]

/-- The watcher check of a method whose frame has the watcher at index 1. -/
theorem check_watcher_frame (s : State) (stk : List TValue) (w : Nat)
    (h1 : stackAt stk 1 = TValue.userdata w) :
    check_watcher { s with stack := stk } 1 =
      if hasMagic s (TValue.userdata w) WATCHER_TYPE_MAGIC_IDX watcher_magic = true then
        Except.ok (Ptr.block w, { s with stack := stk })
      else Except.error (LuaError.typerror 1 ("ev\x7bio,timer,signal,idle\x7d")) := by
  rw [check_watcher_eq { s with stack := stk } 1 (TValue.userdata w)
    (by rw [index2adr_pos _ 1 (by decide)]; exact congrArg _ h1), hasMagic_stack]
  rfl

/-- The flags watcher_shadow leaves. -/
theorem shadow_flags (w : Nat) (methods : TValue) (arg : Option TValue) (s s1 : State)
    (h : runOp w methods (WatcherOp.shadow arg) s = Except.ok s1) :
    (s1.wdata w).flags =
      match arg with
      | none => (s.wdata w).flags
      | some v =>
        if v = TValue.nil then clearBits (s.wdata w).flags WATCHER_FLAG_HAS_SHADOW
        else (s.wdata w).flags ||| WATCHER_FLAG_HAS_SHADOW := by
  simp only [runOp, watcher_shadow] at h
  rw [check_watcher_frame s _ w (argFrame_1 w arg)] at h
  by_cases hmg : hasMagic s (TValue.userdata w) WATCHER_TYPE_MAGIC_IDX watcher_magic = true
  · cases arg with
    | none =>
      simp [hmg, argFrame, lua_gettop, lua_getfenv, index2adr, stackAt_one_1, push,
        blockOf, lua_rawgeti, LUA_REGISTRYINDEX, bind, Except.bind, pure, Except.pure,
        Except.map] at h
      subst h
      rfl
    | some v =>
      have h2 : ∀ a b : TValue, stackAt [a, b, v, TValue.userdata w] 2 = v := by
        intro a b
        simp [stackAt]
      by_cases hv : v = TValue.nil
      · subst hv
        simp [hmg, argFrame, lua_gettop, lua_getfenv, index2adr, stackAt_two_1, stackAt_two_2,
          push, blockOf, lua_rawgeti, lua_isnil, lua_pushvalue, lua_rawseti, h2,
          LUA_REGISTRYINDEX, set_flags, setTable, bind, Except.bind, pure, Except.pure,
          Except.map] at h
        subst h
        simp
      · simp [hmg, hv, argFrame, lua_gettop, lua_getfenv, index2adr, stackAt_two_1,
          stackAt_two_2, push, blockOf, lua_rawgeti, lua_isnil, lua_pushvalue, h2,
          LUA_REGISTRYINDEX, lua_rawseti, set_flags, setTable, bind, Except.bind, pure,
          Except.pure, Except.map] at h
        subst h
        simp [hv]
  · simp [hmg, bind, Except.bind, Except.map] at h

/-- The method watcher_callback leaves the watcher headers alone. -/
theorem callback_wdata (w : Nat) (methods : TValue) (arg : Option TValue) (s s1 : State)
    (h : runOp w methods (WatcherOp.callback arg) s = Except.ok s1) :
    s1.wdata = s.wdata := by
  simp only [runOp, watcher_callback] at h
  rw [check_watcher_frame s _ w (argFrame_1 w arg)] at h
  by_cases hmg : hasMagic s (TValue.userdata w) WATCHER_TYPE_MAGIC_IDX watcher_magic = true
  · cases arg with
    | none =>
      simp [hmg, argFrame, lua_gettop, lua_getfenv, index2adr, stackAt_one_1, push,
        lua_rawgeti, LUA_REGISTRYINDEX, bind, Except.bind, pure, Except.pure,
        Except.map] at h
      subst h
      rfl
    | some v =>
      have h2 : ∀ a b : TValue, stackAt [a, b, v, TValue.userdata w] 2 = v := by
        intro a b
        simp [stackAt]
      cases v <;>
      simp [hmg, argFrame, lua_gettop, lua_getfenv, index2adr, stackAt_two_1,
        stackAt_two_2, push, lua_rawgeti, lua_pushvalue, h2, luaL_checktype_function,
        LUA_REGISTRYINDEX, lua_rawseti, setTable, bind, Except.bind, pure,
        Except.pure, Except.map, throw, throwThe, MonadExceptOf.throw] at h
      subst h
      rfl
  · simp [hmg, bind, Except.bind, Except.map] at h

/-- The method watcher_priority leaves the watcher headers alone. -/
theorem priority_wdata (w : Nat) (methods : TValue) (arg : Option TValue) (s s1 : State)
    (h : runOp w methods (WatcherOp.priority arg) s = Except.ok s1) :
    s1.wdata = s.wdata := by
  simp only [runOp, watcher_priority] at h
  rw [check_watcher_frame s _ w (argFrame_1 w arg)] at h
  by_cases hmg : hasMagic s (TValue.userdata w) WATCHER_TYPE_MAGIC_IDX watcher_magic = true
  · cases arg with
    | none =>
      simp [hmg, argFrame, lua_gettop, lua_pushinteger, push, bind, Except.bind, pure,
        Except.pure, Except.map] at h
      subst h
      rfl
    | some v =>
      cases v with
      | number n =>
        simp [hmg, argFrame, lua_gettop, lua_pushinteger, push, luaL_checkint, index2adr,
          stackAt_two_2, bind, Except.bind, pure, Except.pure, Except.map] at h
        subst h
        rfl
      | str x =>
        cases hx : x.toInt? with
        | none =>
          simp [hmg, hx, argFrame, lua_gettop, lua_pushinteger, push, luaL_checkint, index2adr,
            stackAt_two_2, luaL_typerror, bind, Except.bind, pure, Except.pure, Except.map,
            throw, throwThe, MonadExceptOf.throw] at h
        | some n =>
          simp [hmg, hx, argFrame, lua_gettop, lua_pushinteger, push, luaL_checkint, index2adr,
            stackAt_two_2, bind, Except.bind, pure, Except.pure, Except.map] at h
          subst h
          rfl
      | _ =>
        simp [hmg, argFrame, lua_gettop, lua_pushinteger, push, luaL_checkint, index2adr,
          stackAt_two_2, luaL_typerror, bind, Except.bind, pure, Except.pure, Except.map,
          throw, throwThe, MonadExceptOf.throw] at h
  · simp [hmg, bind, Except.bind, Except.map] at h

theorem hasMagic_frame (s : State) (stk ups : List TValue) (v : TValue) (slot : Int)
    (magic : Nat) :
    hasMagic { s with stack := stk, upvalues := ups } v slot magic =
      hasMagic s v slot magic := by
  cases v <;> simp [hasMagic]
  case userdata u =>
    cases s.udMeta u <;> simp
    case table m => cases m <;> rfl

/-- Closed form of watcher_index in the frame of the __index metamethod: the
stack holds the watcher and the key, the first upvalue is the methods table
mt. -/
theorem watcher_index_eq (s : State) (w : Nat) (k : TValue) (mt : TabRef)
    (ups : List TValue) :
    watcher_index { s with stack := [k, TValue.userdata w], upvalues := TValue.table mt :: ups } =
      if tget (getTable s mt) k ≠ TValue.nil then
        Except.ok ((1 : Int), { s with
          stack := [tget (getTable s mt) k, k, TValue.userdata w]
          upvalues := TValue.table mt :: ups })
      else if hasMagic s (TValue.userdata w) WATCHER_TYPE_MAGIC_IDX watcher_magic = true then
        if (s.wdata w).flags &&& WATCHER_FLAG_HAS_SHADOW ≠ 0 then
          match shadowOf s w with
          | TValue.table r =>
            Except.ok ((1 : Int), { s with
              stack := [tget (getTable s r) k, TValue.table r, k, TValue.userdata w]
              upvalues := TValue.table mt :: ups })
          | _ => Except.error LuaError.apicheck
        else Except.ok ((1 : Int), { s with
          stack := [TValue.nil, k, TValue.userdata w]
          upvalues := TValue.table mt :: ups })
      else Except.error (LuaError.typerror 1 ("ev\x7bio,timer,signal,idle\x7d")) := by
  have hck := check_watcher_eq
    { s with stack := [k, TValue.userdata w], upvalues := TValue.table mt :: ups } 1
    (TValue.userdata w) (by simp [index2adr, stackAt])
  rw [hasMagic_frame] at hck
  have hgt : ∀ (stk ups : List TValue) (r : TabRef),
      getTable { s with stack := stk, upvalues := ups } r = getTable s r := by
    intro stk ups r
    cases r <;> rfl
  have h2 : ∀ a : TValue, stackAt [a, k, TValue.userdata w] 2 = k := by
    intro a
    simp [stackAt]
  have h1 : ∀ a : TValue, stackAt [a, k, TValue.userdata w] 1 = TValue.userdata w := by
    intro a
    simp [stackAt]
  unfold watcher_index
  by_cases hm : tget (getTable s mt) k = TValue.nil
  · by_cases hmg : hasMagic s (TValue.userdata w) WATCHER_TYPE_MAGIC_IDX watcher_magic = true
    · by_cases hf : (s.wdata w).flags &&& WATCHER_FLAG_HAS_SHADOW = 0
      · simp [hm, hmg, hf, hck, hgt, lua_pushvalue, index2adr, stackAt_two_2, push, lua_gettable,
          lua_rawget, lua_upvalueindex, LUA_GLOBALSINDEX, LUA_REGISTRYINDEX, lua_isnil, lua_pop,
          touserdata, blockOf, lua_pushnil, bind, Except.bind, pure, Except.pure]
      · cases hsh : shadowOf s w <;>
        simp only [shadowOf] at hsh <;>
        simp [hm, hmg, hf, hck, hgt, hsh, shadowOf, lua_pushvalue, index2adr, stackAt_two_2,
          stackAt_two_1, h1, h2, push,
          lua_gettable, lua_rawget, lua_upvalueindex, LUA_GLOBALSINDEX, LUA_REGISTRYINDEX,
          lua_isnil, lua_pop, touserdata, blockOf, lua_getfenv, lua_rawgeti, lua_remove,
          getTable, bind, Except.bind, pure, Except.pure, throw, throwThe, MonadExceptOf.throw]
    · simp [hm, hmg, hck, hgt, lua_pushvalue, index2adr, stackAt_two_2, push, lua_gettable,
        lua_rawget, lua_upvalueindex, LUA_GLOBALSINDEX, LUA_REGISTRYINDEX, lua_isnil, lua_pop,
        bind, Except.bind, pure, Except.pure]
  · simp [hm, hgt, lua_pushvalue, index2adr, stackAt_two_2, push, lua_gettable,
      lua_rawget, lua_upvalueindex, LUA_GLOBALSINDEX, LUA_REGISTRYINDEX, lua_isnil,
      bind, Except.bind, pure, Except.pure]

theorem hasMagic_stack_only (s : State) (stk : List TValue) (v : TValue) (slot : Int)
    (magic : Nat) :
    hasMagic { s with stack := stk } v slot magic = hasMagic s v slot magic := by
  cases v <;> simp [hasMagic]
  case userdata u =>
    cases s.udMeta u <;> simp
    case table m => cases m <;> rfl

/-- Closed form of watcher_newindex in the frame of the __newindex metamethod:
the stack holds the watcher, the key and the value. When HAS_SHADOW is set the
value is stored under the key in the shadow table. When it is clear, a new
table becomes the shadow table, but the fenv is left on the stack above it, so
lua_settable stores the fenv table under the value v in the new table. -/
theorem watcher_newindex_eq (s : State) (w : Nat) (k v : TValue) :
    watcher_newindex { s with stack := [v, k, TValue.userdata w] } =
      if hasMagic s (TValue.userdata w) WATCHER_TYPE_MAGIC_IDX watcher_magic = true then
        if (s.wdata w).flags &&& WATCHER_FLAG_HAS_SHADOW ≠ 0 then
          match shadowOf s w with
          | TValue.table r =>
            if k = TValue.nil then Except.error (LuaError.error ("table index is nil"))
            else Except.ok ((0 : Int),
              setTable { s with stack := [TValue.table r] } r (tset (getTable s r) k v))
          | _ => Except.error (LuaError.error ("attempt to index a value that is not a table"))
        else
          if v = TValue.nil then Except.error (LuaError.error ("table index is nil"))
          else Except.ok ((0 : Int),
            { s with
              stack := [k, TValue.table (TabRef.heap s.nextTab)]
              tables :=
                Function.update
                  (Function.update (Function.update s.tables s.nextTab []) (s.udEnv w)
                    (tset (Function.update s.tables s.nextTab [] (s.udEnv w))
                      (TValue.number WATCHER_SHADOW) (TValue.table (TabRef.heap s.nextTab))))
                  s.nextTab
                  (tset
                    (Function.update (Function.update s.tables s.nextTab []) (s.udEnv w)
                      (tset (Function.update s.tables s.nextTab [] (s.udEnv w))
                        (TValue.number WATCHER_SHADOW) (TValue.table (TabRef.heap s.nextTab)))
                      s.nextTab)
                    v (TValue.table (TabRef.heap (s.udEnv w))))
              nextTab := s.nextTab + 1
              wdata := Function.update s.wdata w
                { watcher_ref := (s.wdata w).watcher_ref
                  flags := (s.wdata w).flags ||| WATCHER_FLAG_HAS_SHADOW } })
      else Except.error (LuaError.typerror 1 ("ev\x7bio,timer,signal,idle\x7d")) := by
  have hck : ∀ v k : TValue, check_watcher { s with stack := [v, k, TValue.userdata w] } 1 =
      if hasMagic s (TValue.userdata w) WATCHER_TYPE_MAGIC_IDX watcher_magic = true then
        Except.ok (touserdata (TValue.userdata w),
          { s with stack := [v, k, TValue.userdata w] })
      else Except.error (LuaError.typerror 1 ("ev\x7bio,timer,signal,idle\x7d")) := by
    intro v k
    have h := check_watcher_eq { s with stack := [v, k, TValue.userdata w] } 1
      (TValue.userdata w) (by simp [index2adr, stackAt])
    rw [hasMagic_stack_only] at h
    exact h
  have h1 : ∀ a : TValue, stackAt [a, v, k, TValue.userdata w] 1 = TValue.userdata w := by
    intro a
    simp [stackAt]
  unfold watcher_newindex
  by_cases hmg : hasMagic s (TValue.userdata w) WATCHER_TYPE_MAGIC_IDX watcher_magic = true
  · by_cases hf : (s.wdata w).flags &&& WATCHER_FLAG_HAS_SHADOW = 0
    · by_cases hv : v = TValue.nil
      · simp [hmg, hf, hv, hck, touserdata, blockOf, lua_settop, lua_getfenv, index2adr,
          stackAt_three_1, push, lua_newtable, lua_createtable, lua_pushvalue, lua_rawseti,
          LUA_REGISTRYINDEX, getTable, setTable, set_flags, lua_replace, lua_settable, stackAt,
          bind, Except.bind, pure, Except.pure, throw, throwThe, MonadExceptOf.throw]
      · simp [hmg, hf, hv, hck, touserdata, blockOf, lua_settop, lua_getfenv, index2adr,
          stackAt_three_1, push, lua_newtable, lua_createtable, lua_pushvalue, lua_rawseti,
          LUA_REGISTRYINDEX, getTable, setTable, set_flags, lua_replace, lua_settable, stackAt,
          bind, Except.bind, pure, Except.pure, throw, throwThe, MonadExceptOf.throw]
    · by_cases hk : k = TValue.nil <;>
      cases hsh : shadowOf s w <;>
      simp only [shadowOf] at hsh <;>
      simp [hmg, hf, hk, hsh, shadowOf, hck, touserdata, blockOf, lua_settop, lua_getfenv,
        index2adr, stackAt_three_1, push, lua_rawgeti, lua_remove, h1,
        LUA_REGISTRYINDEX, getTable, setTable, lua_replace, lua_settable, stackAt,
        bind, Except.bind, pure, Except.pure, throw, throwThe, MonadExceptOf.throw]
  · simp [hmg, hck, bind, Except.bind]

theorem or_daemon_keeps_shadow_bit (f : Nat) : (f ||| 1) &&& 2 = f &&& 2 := by
  apply Nat.eq_of_testBit_eq
  intro i
  simp only [Nat.testBit_and, Nat.testBit_or]
  cases i with
  | zero => simp
  | succ j =>
    have h1 : Nat.testBit 1 (j + 1) = false := by
      simp [Nat.testBit_succ]
    simp [h1]

theorem clear_daemon_keeps_shadow_bit (f : Nat) : clearBits f 1 &&& 2 = f &&& 2 := by
  unfold clearBits
  rw [Nat.and_assoc]
  have : (4294967295 - 1) &&& 2 = 2 := by decide
  rw [this]

theorem or_shadow_bit (f : Nat) : (f ||| 2) &&& 2 = 2 := by
  apply Nat.eq_of_testBit_eq
  intro i
  simp only [Nat.testBit_and, Nat.testBit_or]
  cases f.testBit i <;> cases Nat.testBit 2 i <;> rfl

theorem clear_shadow_bit (f : Nat) : clearBits f 2 &&& 2 = 0 := by
  unfold clearBits
  rw [Nat.and_assoc]
  have : (4294967295 - 2) &&& 2 = 0 := by decide
  rw [this, Nat.and_zero]

/-- A property write leaves HAS_SHADOW set, and leaves the flags as they were
when it was set already. -/
theorem newindex_flags (w : Nat) (methods k v : TValue) (s s1 : State)
    (h : runOp w methods (WatcherOp.newindex k v) s = Except.ok s1) :
    hasShadow s1 w = true := by
  simp only [runOp] at h
  rw [watcher_newindex_eq] at h
  by_cases hmg : hasMagic s (TValue.userdata w) WATCHER_TYPE_MAGIC_IDX watcher_magic = true
  · by_cases hf : (s.wdata w).flags &&& WATCHER_FLAG_HAS_SHADOW = 0
    · by_cases hv : v = TValue.nil
      · simp [hmg, hf, hv, Except.map] at h
      · simp [hmg, hf, hv, Except.map] at h
        subst h
        simp [hasShadow, WATCHER_FLAG_HAS_SHADOW, or_shadow_bit]
    · cases hsh : shadowOf s w with
      | table r =>
        by_cases hk : k = TValue.nil
        · simp [hmg, hf, hk, hsh, Except.map] at h
        · simp [hmg, hf, hk, hsh, Except.map] at h
          subst h
          cases r <;> simpa [hasShadow, setTable] using hf
      | _ => simp [hmg, hf, hsh, Except.map] at h
  · simp [hmg, Except.map] at h

/-- A property read leaves the watcher headers alone. -/
theorem index_wdata (w : Nat) (methods k : TValue) (s s1 : State)
    (h : runOp w methods (WatcherOp.index k) s = Except.ok s1) :
    s1.wdata = s.wdata := by
  simp only [runOp] at h
  cases methods with
  | table mt =>
    rw [watcher_index_eq] at h
    by_cases hm : tget (getTable s mt) k = TValue.nil
    · by_cases hmg : hasMagic s (TValue.userdata w) WATCHER_TYPE_MAGIC_IDX watcher_magic = true
      · by_cases hf : (s.wdata w).flags &&& WATCHER_FLAG_HAS_SHADOW = 0
        · simp [hm, hmg, hf, Except.map] at h
          subst h
          rfl
        · cases hsh : shadowOf s w <;> simp [hm, hmg, hf, hsh, Except.map] at h
          subst h
          rfl
      · simp [hm, hmg, Except.map] at h
    · simp [hm, Except.map] at h
      subst h
      rfl
  | _ =>
    simp [watcher_index, lua_pushvalue, index2adr, stackAt_two_2, push, lua_gettable,
      lua_rawget, lua_upvalueindex, LUA_GLOBALSINDEX, LUA_REGISTRYINDEX,
      bind, Except.bind, pure, Except.pure, Except.map, throw, throwThe,
      MonadExceptOf.throw] at h

/-- A start or stop made with the index of the watcher changes at most the
IS_DAEMON bit of the flags. -/
theorem lifecycle_keeps_shadow_bit (w : Nat) (c : LifecycleCall) (s s1 : State)
    (hc : ownIndex w c = true) (h : runCall w c s = Except.ok s1) :
    hasShadow s1 w = hasShadow s w := by
  have hor := or_daemon_keeps_shadow_bit (s.wdata w).flags
  have hcl := clear_daemon_keeps_shadow_bit (s.wdata w).flags
  cases c with
  | start stk loop loop_i watcher_i is_daemon =>
    simp only [ownIndex, Bool.and_eq_true, decide_eq_true_eq] at hc
    obtain ⟨⟨⟨hwi, hw⟩, hli⟩, hl⟩ := hc
    simp only [runCall] at h
    by_cases href : (s.wdata w).watcher_ref = LUA_NOREF
    · cases hlv : stackAt stk loop_i with
      | userdata lh =>
        rw [start_stopped { s with stack := stk } loop w loop_i watcher_i
          (TValue.userdata lh) is_daemon hwi hli hw hlv (by simp) href] at h
        injection h with h
        subst h
        by_cases hd : resolveDaemon { s with stack := stk } w is_daemon = 0 <;>
        simp [hasShadow, hd, WATCHER_FLAG_IS_DAEMON, WATCHER_FLAG_HAS_SHADOW, hor, hcl]
      | _ => simp [hlv, isUserdata] at hl
    · rw [start_started { s with stack := stk } loop w loop_i watcher_i is_daemon href] at h
      injection h with h
      subst h
      split_ifs <;>
      simp [hasShadow, set_flags, ev_ref, ev_unref, WATCHER_FLAG_IS_DAEMON,
        WATCHER_FLAG_HAS_SHADOW, hor, hcl]
  | stop stk loop watcher_i =>
    simp only [ownIndex, Bool.and_eq_true, decide_eq_true_eq] at hc
    obtain ⟨hwi, hw⟩ := hc
    simp only [runCall] at h
    by_cases href : (s.wdata w).watcher_ref = LUA_NOREF
    · rw [stop_stopped { s with stack := stk } loop w watcher_i href] at h
      injection h with h
      subst h
      rfl
    · rw [stop_started { s with stack := stk } loop w watcher_i w hwi hw href] at h
      injection h with h
      subst h
      simp [hasShadow]

/-- A watcher as watcher_new returns it has no flag set. -/
theorem watcher_new_flags (s s0 : State) (size lua_type w : Nat)
    (h : watcher_new size lua_type s = Except.ok (w, s0)) :
    (s0.wdata w).flags = 0 := by
  have h1 : index2adr s 1 = Except.ok (stackAt s.stack 1) := index2adr_pos s 1 (by decide)
  unfold watcher_new luaL_checktype_function at h
  rw [h1] at h
  cases hf : stackAt s.stack 1 with
  | func f =>
    have hf2 : ∀ x y, stackAt (x :: y :: s.stack) 1 = TValue.func f := fun x y =>
      stackAt_cons _ _ _ _ (stackAt_cons _ _ _ _ hf (by simp)) (by simp)
    cases hm : tget s.registry (TValue.lightuserdata lua_type) with
    | nil =>
      simp [hf, hm, hf2, obj_new, lua_newuserdata, lua_ev_getmetatable, lua_pushlightuserdata,
        push, lua_rawget, index2adr, LUA_REGISTRYINDEX, getTable, setTable, lua_setmetatable,
        lua_createtable, lua_pushvalue, index2adr_pos, lua_rawseti, lua_setfenv,
        set_watcher_ref, set_flags, bind, Except.bind, pure, Except.pure] at h
      obtain ⟨hw, hs⟩ := h
      subst hw
      subst hs
      simp
    | table m =>
      simp [hf, hm, hf2, obj_new, lua_newuserdata, lua_ev_getmetatable, lua_pushlightuserdata,
        push, lua_rawget, index2adr, LUA_REGISTRYINDEX, getTable, setTable, lua_setmetatable,
        lua_createtable, lua_pushvalue, index2adr_pos, lua_rawseti, lua_setfenv,
        set_watcher_ref, set_flags, bind, Except.bind, pure, Except.pure] at h
      obtain ⟨hw, hs⟩ := h
      subst hw
      subst hs
      simp
    | _ =>
      simp [hf, hm, obj_new, lua_newuserdata, lua_ev_getmetatable, lua_pushlightuserdata,
        push, lua_rawget, index2adr, LUA_REGISTRYINDEX, getTable, lua_setmetatable,
        bind, Except.bind, pure, Except.pure, throw, throwThe, MonadExceptOf.throw] at h
  | _ => simp [hf, bind, Except.bind, throw, throwThe, MonadExceptOf.throw] at h

/-- An operation other than watcher_shadow called with nil keeps a set
HAS_SHADOW set. -/
theorem runOp_keeps_shadow (w : Nat) (methods : TValue) (op : WatcherOp) (s s1 : State)
    (hown : opOwnIndex w op = true) (hnil : isShadowNil op = false)
    (h : runOp w methods op s = Except.ok s1) (hs : hasShadow s w = true) :
    hasShadow s1 w = true := by
  cases op with
  | newindex k v => exact newindex_flags w methods k v s s1 h
  | index k =>
    have := index_wdata w methods k s s1 h
    simpa [hasShadow, this] using hs
  | callback arg =>
    have := callback_wdata w methods arg s s1 h
    simpa [hasShadow, this] using hs
  | priority arg =>
    have := priority_wdata w methods arg s s1 h
    simpa [hasShadow, this] using hs
  | shadow arg =>
    have hfl := shadow_flags w methods arg s s1 h
    cases arg with
    | none =>
      simp only at hfl
      simpa [hasShadow, hfl] using hs
    | some v =>
      by_cases hv : v = TValue.nil
      · subst hv
        simp [isShadowNil] at hnil
      · simp only [hv, if_false] at hfl
        simp [hasShadow, hfl, WATCHER_FLAG_HAS_SHADOW, or_shadow_bit]
  | lifecycle c =>
    rw [lifecycle_keeps_shadow_bit w c s s1 hown h]
    exact hs

theorem runOps_keep_shadow (w : Nat) (methods : TValue) (ops : List WatcherOp) :
    ∀ s s1 : State,
      (∀ op ∈ ops, opOwnIndex w op = true ∧ isShadowNil op = false) →
      runOps w methods ops s = Except.ok s1 → hasShadow s w = true →
      hasShadow s1 w = true := by
  induction ops with
  | nil =>
    intro s s1 _ h hs
    simp only [runOps] at h
    injection h with h
    subst h
    exact hs
  | cons op ops ih =>
    intro s s1 hops h hs
    simp only [runOps] at h
    cases hop : runOp w methods op s with
    | error e => simp [hop] at h
    | ok s2 =>
      simp only [hop] at h
      have hmem := hops op (List.mem_cons_self op ops)
      exact ih s2 s1 (fun x hx => hops x (List.mem_cons_of_mem op hx)) h
        (runOp_keeps_shadow w methods op s s2 hmem.1 hmem.2 hop hs)

/-- C12 (counterexample): on the timer watcher 20 of exSlot a property write
sets HAS_SHADOW and watcher_shadow called with nil then clears it; and
watcher_shadow called with a table sets HAS_SHADOW on a watcher that never saw
a property write. -/
theorem shadow_method_sets_and_clears_has_shadow :
    ∃ s1 s2 s3,
      runOp 20 (TValue.table (TabRef.heap 4))
        (WatcherOp.newindex (TValue.str ("x")) (TValue.number 42)) exSlot = Except.ok s1 ∧
      hasShadow s1 20 = true ∧
      runOp 20 (TValue.table (TabRef.heap 4)) (WatcherOp.shadow (some TValue.nil)) s1 =
        Except.ok s2 ∧
      hasShadow s2 20 = false ∧
      hasShadow exSlot 20 = false ∧
      runOp 20 (TValue.table (TabRef.heap 4))
        (WatcherOp.shadow (some (TValue.table (TabRef.heap 4)))) exSlot = Except.ok s3 ∧
      hasShadow s3 20 = true := by
  refine ⟨_, _, _, rfl, ?_, rfl, ?_, ?_, rfl, ?_⟩ <;> decide

/-- C12 (amended): HAS_SHADOW is clear on a watcher fresh from watcher_new. It
is set by every property write through watcher_newindex and by watcher_shadow
called with a non-nil argument, and cleared by watcher_shadow called with nil.
Property reads, callback, priority, watcher_shadow without argument, and a
start or stop made with the index of the watcher leave it as it is. Hence
every sequence of public operations that contains no watcher_shadow call with
nil keeps a set HAS_SHADOW set. -/
theorem has_shadow_cleared_only_by_shadow_nil :
    (∀ (s s0 : State) (size lua_type w : Nat),
      watcher_new size lua_type s = Except.ok (w, s0) → hasShadow s0 w = false) ∧
    (∀ (w : Nat) (methods k v : TValue) (s s1 : State),
      runOp w methods (WatcherOp.newindex k v) s = Except.ok s1 → hasShadow s1 w = true) ∧
    (∀ (w : Nat) (methods v : TValue) (s s1 : State), v ≠ TValue.nil →
      runOp w methods (WatcherOp.shadow (some v)) s = Except.ok s1 →
      hasShadow s1 w = true) ∧
    (∀ (w : Nat) (methods : TValue) (s s1 : State),
      runOp w methods (WatcherOp.shadow (some TValue.nil)) s = Except.ok s1 →
      hasShadow s1 w = false) ∧
    (∀ (w : Nat) (methods : TValue) (op : WatcherOp) (s s1 : State),
      (op = WatcherOp.shadow none ∨ (∃ k, op = WatcherOp.index k) ∨
        (∃ a, op = WatcherOp.callback a) ∨ (∃ a, op = WatcherOp.priority a) ∨
        (∃ c, op = WatcherOp.lifecycle c ∧ ownIndex w c = true)) →
      runOp w methods op s = Except.ok s1 → hasShadow s1 w = hasShadow s w) ∧
    (∀ (w : Nat) (methods : TValue) (ops : List WatcherOp) (s s1 : State),
      (∀ op ∈ ops, opOwnIndex w op = true ∧ isShadowNil op = false) →
      runOps w methods ops s = Except.ok s1 → hasShadow s w = true →
      hasShadow s1 w = true) := by
  refine ⟨?_, newindex_flags, ?_, ?_, ?_, runOps_keep_shadow⟩
  · intro s s0 size lua_type w h
    simp [hasShadow, watcher_new_flags s s0 size lua_type w h]
  · intro w methods v s s1 hv h
    have hfl := shadow_flags w methods (some v) s s1 h
    simp only [hv, if_false] at hfl
    simp [hasShadow, hfl, WATCHER_FLAG_HAS_SHADOW, or_shadow_bit]
  · intro w methods s s1 h
    have hfl := shadow_flags w methods (some TValue.nil) s s1 h
    simp only [if_true] at hfl
    simp [hasShadow, hfl, WATCHER_FLAG_HAS_SHADOW, clear_shadow_bit]
  · intro w methods op s s1 hop h
    rcases hop with hop | ⟨k, hop⟩ | ⟨a, hop⟩ | ⟨a, hop⟩ | ⟨c, hop, hc⟩ <;> subst hop
    · have hfl := shadow_flags w methods none s s1 h
      simp only at hfl
      simp [hasShadow, hfl]
    · simp [hasShadow, index_wdata w methods k s s1 h]
    · simp [hasShadow, callback_wdata w methods a s s1 h]
    · simp [hasShadow, priority_wdata w methods a s s1 h]
    · exact lifecycle_keeps_shadow_bit w c s s1 hc h

theorem has_shadow_cleared_only_by_shadow_nil_witness :
    runOp 20 exMethods (WatcherOp.newindex (TValue.str ("x")) (TValue.number 42)) exSlot =
      Except.ok exWritten ∧
    hasShadow exWritten 20 = true ∧
    runOps 20 exMethods exOps exWritten = Except.ok exAfterOps ∧
    hasShadow exAfterOps 20 = true :=
  ⟨rfl,
    has_shadow_cleared_only_by_shadow_nil.2.1 20 exMethods (TValue.str ("x"))
      (TValue.number 42) exSlot exWritten rfl,
    rfl,
    has_shadow_cleared_only_by_shadow_nil.2.2.2.2.2 20 exMethods exOps exWritten exAfterOps
      (by decide) rfl
      (has_shadow_cleared_only_by_shadow_nil.2.1 20 exMethods (TValue.str ("x"))
        (TValue.number 42) exSlot exWritten rfl)⟩


theorem getTable_setTable_ne (s : State) (r mt : TabRef) (c : Table) (h : mt ≠ r) :
    getTable (setTable s r c) mt = getTable s mt := by
  cases r with
  | registry =>
    cases mt with
    | registry => exact absurd rfl h
    | heap m => rfl
  | heap t =>
    cases mt with
    | registry => rfl
    | heap m =>
      have hne : m ≠ t := fun e => h (by rw [e])
      simp [getTable, setTable, Function.update_noteq hne]

/-- A property write leaves alone every table that is neither the shadow
table, nor the fenv, nor the table the write allocates. -/
theorem newindex_keeps_table (w : Nat) (methods k v : TValue) (s s1 : State) (mt : TabRef)
    (hsh : shadowOf s w ≠ TValue.table mt)
    (hfenv : mt ≠ TabRef.heap (s.udEnv w))
    (hnew : mt ≠ TabRef.heap s.nextTab)
    (h : runOp w methods (WatcherOp.newindex k v) s = Except.ok s1) :
    getTable s1 mt = getTable s mt := by
  simp only [runOp] at h
  rw [watcher_newindex_eq] at h
  by_cases hmg : hasMagic s (TValue.userdata w) WATCHER_TYPE_MAGIC_IDX watcher_magic = true
  · by_cases hf : (s.wdata w).flags &&& WATCHER_FLAG_HAS_SHADOW = 0
    · by_cases hv : v = TValue.nil
      · simp [hmg, hf, hv, Except.map] at h
      · simp [hmg, hf, hv, Except.map] at h
        subst h
        cases mt with
        | registry => rfl
        | heap m =>
          have h1 : m ≠ s.udEnv w := fun e => hfenv (by rw [e])
          have h2 : m ≠ s.nextTab := fun e => hnew (by rw [e])
          simp [getTable, Function.update_noteq h1, Function.update_noteq h2]
    · cases hs : shadowOf s w with
      | table r =>
        by_cases hk : k = TValue.nil
        · simp [hmg, hf, hk, hs, Except.map] at h
        · simp [hmg, hf, hk, hs, Except.map] at h
          subst h
          have hne : mt ≠ r := by
            intro e
            rw [hs, e] at hsh
            exact hsh rfl
          rw [getTable_setTable_ne _ _ _ _ hne]
          cases mt <;> rfl
      | _ => simp [hmg, hf, hs, Except.map] at h
  · simp [hmg, Except.map] at h

/-- C13 (what the code does): the timer watcher 20 of exSlot has no shadow table
and x is not a method name. The property write of 42 under x succeeds, but
it stores the fenv table under the key 42 in the new shadow table 7, and the
property read of x that follows returns nil. Once the shadow table exists, the
write of 43 under y and the read of y give 43. -/
theorem first_property_write_is_lost :
    hasShadow exSlot 20 = false ∧
    tget (getTable exSlot (TabRef.heap 4)) (TValue.str ("x")) = TValue.nil ∧
    runOp 20 exMethods (WatcherOp.newindex (TValue.str ("x")) (TValue.number 42)) exSlot =
      Except.ok exWritten ∧
    returned (watcher_index (indexFrame exWritten 20 (TValue.str ("x")) exMethods)) =
      some TValue.nil ∧
    exWritten.tables 7 = [(TValue.number 42, TValue.table (TabRef.heap 2))] ∧
    (∃ s2, runOp 20 exMethods (WatcherOp.newindex (TValue.str ("y")) (TValue.number 43))
        exWritten = Except.ok s2 ∧
      returned (watcher_index (indexFrame s2 20 (TValue.str ("y")) exMethods)) =
        some (TValue.number 43)) := by
  refine ⟨by decide, by decide, rfl, by decide, by decide, _, rfl, ?_⟩
  decide

/-- C14: in the frame of the __index metamethod with the methods table mt as
first upvalue, watcher_index returns the entry of the methods table for the
key when there is one; otherwise, on a watcher, the entry of the shadow table
when HAS_SHADOW is set, and nil when it is clear. A key that names a method
therefore reads as the method before and after a property write to that key,
the shadow table, the fenv and the table a write allocates being other
tables than the methods table. -/
theorem property_read_is_two_tier (s : State) (w : Nat) (k : TValue) (mt : TabRef) :
    (tget (getTable s mt) k ≠ TValue.nil →
      returned (watcher_index (indexFrame s w k (TValue.table mt))) =
        some (tget (getTable s mt) k)) ∧
    (tget (getTable s mt) k = TValue.nil →
      hasMagic s (TValue.userdata w) WATCHER_TYPE_MAGIC_IDX watcher_magic = true →
      hasShadow s w = true →
      ∀ r, shadowOf s w = TValue.table r →
        returned (watcher_index (indexFrame s w k (TValue.table mt))) =
          some (tget (getTable s r) k)) ∧
    (tget (getTable s mt) k = TValue.nil →
      hasMagic s (TValue.userdata w) WATCHER_TYPE_MAGIC_IDX watcher_magic = true →
      hasShadow s w = false →
      returned (watcher_index (indexFrame s w k (TValue.table mt))) = some TValue.nil) ∧
    (tget (getTable s mt) k ≠ TValue.nil →
      shadowOf s w ≠ TValue.table mt → mt ≠ TabRef.heap (s.udEnv w) →
      mt ≠ TabRef.heap s.nextTab →
      ∀ v s1, runOp w (TValue.table mt) (WatcherOp.newindex k v) s = Except.ok s1 →
        returned (watcher_index (indexFrame s1 w k (TValue.table mt))) =
          some (tget (getTable s mt) k)) := by
  have key : ∀ s0 : State, tget (getTable s0 mt) k ≠ TValue.nil →
      returned (watcher_index (indexFrame s0 w k (TValue.table mt))) =
        some (tget (getTable s0 mt) k) := by
    intro s0 hm
    simp only [indexFrame]
    rw [watcher_index_eq, if_pos hm]
    simp [returned]
  refine ⟨key s, ?_, ?_, ?_⟩
  · intro hm hmg hs r hr
    have hf : (s.wdata w).flags &&& WATCHER_FLAG_HAS_SHADOW ≠ 0 := by
      simpa [hasShadow] using hs
    simp only [indexFrame]
    rw [watcher_index_eq, if_neg (by simp [hm]), if_pos hmg, if_pos hf, hr]
    simp [returned]
  · intro hm hmg hs
    have hf : ¬ ((s.wdata w).flags &&& WATCHER_FLAG_HAS_SHADOW ≠ 0) := by
      simpa [hasShadow] using hs
    simp only [indexFrame]
    rw [watcher_index_eq, if_neg (by simp [hm]), if_pos hmg, if_neg hf]
    simp [returned]
  · intro hm hsh hfenv hnew v s1 h
    have hkeep := newindex_keeps_table w (TValue.table mt) k v s s1 mt hsh hfenv hnew h
    rw [← hkeep] at hm ⊢
    exact key s1 hm

theorem property_read_is_two_tier_witness :
    returned (watcher_index (indexFrame exWritten 20 (TValue.str ("start")) exMethods)) =
      some (TValue.func 30) ∧
    returned (watcher_index (indexFrame exWritten 20 (TValue.number 42) exMethods)) =
      some (TValue.table (TabRef.heap 2)) ∧
    returned (watcher_index (indexFrame exSlot 20 (TValue.str ("x")) exMethods)) =
      some TValue.nil :=
  ⟨(property_read_is_two_tier exWritten 20 (TValue.str ("start")) (TabRef.heap 4)).1
      (by decide),
   (property_read_is_two_tier exWritten 20 (TValue.number 42) (TabRef.heap 4)).2.1
      (by decide) (by decide) (by decide) (TabRef.heap 7) (by decide),
   (property_read_is_two_tier exSlot 20 (TValue.str ("x")) (TabRef.heap 4)).2.2.1
      (by decide) (by decide) (by decide)⟩


/-! ## The loop methods -/

/-- The loop check of a method whose frame has a loop handle at index 1. -/
theorem check_loop_frame (s : State) (lh : Nat)
    (h1 : stackAt s.stack 1 = TValue.userdata lh)
    (hmg : hasMagic s (TValue.userdata lh) OBJ_TYPE_MAGIC_IDX lua_ev_loop_mt = true) :
    check_loop s 1 = Except.ok (Ptr.block lh, s) := by
  unfold check_loop
  rw [checkobject_eq s 1 lua_ev_loop_mt (TValue.userdata lh) (by decide)
    (by rw [index2adr_pos s 1 (by decide), h1]), if_pos hmg]
  rfl

/-- C16 (what the code does): the handle 10 of exSlot holds the uninitialized
default loop token. When ev_default_loop returns NULL, check_loop_and_init
raises its error but leaves NULL in the cell; a later check_loop_and_init on
the same handle then succeeds without calling the constructor and hands out
the cell that holds NULL. When ev_loop_new returns NULL, loop_new returns a
new handle, 21, whose cell holds NULL. -/
theorem failed_native_init_leaves_null_cell :
    (∃ e s1, check_loop_and_init (fun _ => NULL) { exSlot with stack := [TValue.userdata 10] } 1 =
        (Except.error e, s1) ∧
      s1.cell 10 = NULL ∧ s1.cell 10 ≠ UNINITIALIZED_DEFAULT_LOOP ∧
      check_loop_and_init (fun _ => 6) s1 1 = (Except.ok 10, s1)) ∧
    (∃ s2, loop_new (fun _ => NULL) exSlot = Except.ok (1, s2) ∧
      s2.stack = [TValue.userdata 21] ∧ s2.cell 21 = NULL ∧
      s2.cell 21 ≠ UNINITIALIZED_DEFAULT_LOOP) := by
  refine ⟨⟨_, _, rfl, ?_, ?_, rfl⟩, ⟨_, rfl, ?_, ?_, ?_⟩⟩ <;> decide

/-- C17 (counterexample): loop_unloop called on the handle 11 of the native
loop 6 with the mode ONE, and with the mode CANCEL, as second argument
records the break request ALL. -/
theorem unloop_ignores_its_mode :
    (∃ s1, loop_unloop (fun _ => 6)
        { exSlot with stack := [TValue.number EVUNLOOP_ONE, TValue.userdata 11] } =
        (Except.ok 0, s1) ∧
      s1.loop_done 6 = EVUNLOOP_ALL ∧ s1.loop_done 6 ≠ EVUNLOOP_ONE) ∧
    (∃ s1, loop_unloop (fun _ => 6)
        { exSlot with stack := [TValue.number EVUNLOOP_CANCEL, TValue.userdata 11] } =
        (Except.ok 0, s1) ∧
      s1.loop_done 6 = EVUNLOOP_ALL ∧ s1.loop_done 6 ≠ EVUNLOOP_CANCEL) := by
  refine ⟨⟨_, rfl, ?_, ?_⟩, ⟨_, rfl, ?_, ?_⟩⟩ <;> decide

/-- C17 (amended): loop_unloop on a loop handle at index 1 records the break
request ALL for the native loop of the handle, whatever else the frame holds:
for the loop in the cell when the cell is initialized, and for the loop
ev_default_loop returns, which it stores in the cell, when the cell holds the
uninitialized default loop token and the constructor does not return NULL. -/
theorem unloop_always_requests_all (ev_default_loop : Int → Nat) (s : State) (lh : Nat)
    (h1 : stackAt s.stack 1 = TValue.userdata lh)
    (hmg : hasMagic s (TValue.userdata lh) OBJ_TYPE_MAGIC_IDX lua_ev_loop_mt = true) :
    (s.cell lh ≠ UNINITIALIZED_DEFAULT_LOOP →
      loop_unloop ev_default_loop s =
        (Except.ok 0, ev_unloop s (s.cell lh) EVUNLOOP_ALL)) ∧
    (s.cell lh = UNINITIALIZED_DEFAULT_LOOP → ev_default_loop EVFLAG_AUTO ≠ NULL →
      loop_unloop ev_default_loop s =
        (Except.ok 0,
          ev_unloop { s with cell := Function.update s.cell lh (ev_default_loop EVFLAG_AUTO) }
            (ev_default_loop EVFLAG_AUTO) EVUNLOOP_ALL)) := by
  have hck := check_loop_frame s lh h1 hmg
  constructor
  · intro hc
    have hc2 : ¬ UNINITIALIZED_DEFAULT_LOOP = s.cell lh := fun e => hc e.symm
    simp [loop_unloop, check_loop_and_init, hck, blockOf, hc2]
  · intro hc hn
    have hn2 : ¬ NULL = ev_default_loop EVFLAG_AUTO := fun e => hn e.symm
    simp [loop_unloop, check_loop_and_init, hck, blockOf, hc, hn2]

theorem unloop_always_requests_all_witness :
    loop_unloop (fun _ => 6)
        { exSlot with stack := [TValue.number EVUNLOOP_ONE, TValue.userdata 11] } =
      (Except.ok 0,
        ev_unloop { exSlot with stack := [TValue.number EVUNLOOP_ONE, TValue.userdata 11] }
          6 EVUNLOOP_ALL) :=
  (unloop_always_requests_all (fun _ => 6)
    { exSlot with stack := [TValue.number EVUNLOOP_ONE, TValue.userdata 11] } 11
    (by decide) (by decide)).1 (by decide)

/-- C18: on a loop handle at index 1 whose cell holds the uninitialized default
loop token, loop_iteration and loop_depth return 0 and change nothing but the
stack, so the cell still holds the token; on an initialized cell they return
the iteration count and the depth of the native loop in the cell. -/
theorem iteration_and_depth_leave_cell (s : State) (lh : Nat)
    (h1 : stackAt s.stack 1 = TValue.userdata lh)
    (hmg : hasMagic s (TValue.userdata lh) OBJ_TYPE_MAGIC_IDX lua_ev_loop_mt = true) :
    (s.cell lh = UNINITIALIZED_DEFAULT_LOOP →
      loop_iteration s = Except.ok (1, { s with stack := TValue.number 0 :: s.stack }) ∧
      loop_depth s = Except.ok (1, { s with stack := TValue.number 0 :: s.stack })) ∧
    (s.cell lh ≠ UNINITIALIZED_DEFAULT_LOOP →
      loop_iteration s =
        Except.ok (1, { s with stack := TValue.number (s.loop_count (s.cell lh)) :: s.stack }) ∧
      loop_depth s =
        Except.ok (1, { s with stack := TValue.number (s.loop_depth (s.cell lh)) :: s.stack })) := by
  have hck := check_loop_frame s lh h1 hmg
  constructor
  · intro hc
    simp [loop_iteration, loop_depth, hck, blockOf, hc, lua_pushinteger, push,
      bind, Except.bind, pure, Except.pure]
  · intro hc
    have hc2 : ¬ UNINITIALIZED_DEFAULT_LOOP = s.cell lh := fun e => hc e.symm
    simp [loop_iteration, loop_depth, hck, blockOf, hc2, lua_pushinteger, push,
      bind, Except.bind, pure, Except.pure]

theorem iteration_and_depth_leave_cell_witness :
    (loop_iteration { exSlot with stack := [TValue.userdata 10] } =
        Except.ok (1, { exSlot with stack := [TValue.number 0, TValue.userdata 10] }) ∧
      loop_depth { exSlot with stack := [TValue.userdata 10] } =
        Except.ok (1, { exSlot with stack := [TValue.number 0, TValue.userdata 10] })) ∧
    (loop_iteration { exSlot with stack := [TValue.userdata 11] } =
        Except.ok (1, { exSlot with stack := [TValue.number 12, TValue.userdata 11] }) ∧
      loop_depth { exSlot with stack := [TValue.userdata 11] } =
        Except.ok (1, { exSlot with stack := [TValue.number 1, TValue.userdata 11] })) :=
  ⟨(iteration_and_depth_leave_cell { exSlot with stack := [TValue.userdata 10] } 10
      (by decide) (by decide)).1 (by decide),
   (iteration_and_depth_leave_cell { exSlot with stack := [TValue.userdata 11] } 11
      (by decide) (by decide)).2 (by decide)⟩


/-! ## Balance of the keep-alive counter -/

/-- The inherit mode is the explicit mode of the current IS_DAEMON bit. -/
theorem start_inherit_eq (s : State) (loop w : Nat) (loop_i watcher_i : Int) :
    loop_start_watcher loop w loop_i watcher_i (-1) s =
      loop_start_watcher loop w loop_i watcher_i (daemonBit s w) s := by
  unfold loop_start_watcher daemonBit
  by_cases hf : (s.wdata w).flags &&& WATCHER_FLAG_IS_DAEMON = WATCHER_FLAG_IS_DAEMON
  · have h1 : ¬ ((1 : Int) = -1) := by decide
    simp [hf, h1]
  · have h0 : ¬ ((0 : Int) = -1) := by decide
    simp [hf, h0]

/-- Every mode the callers pass acts as an explicit mode. -/
theorem start_mode_explicit (s : State) (loop w : Nat) (loop_i watcher_i is_daemon : Int)
    (hd : is_daemon = 0 ∨ is_daemon = 1 ∨ is_daemon = -1) :
    ∃ d : Bool, loop_start_watcher loop w loop_i watcher_i is_daemon s =
      loop_start_watcher loop w loop_i watcher_i (modeOf d) s := by
  rcases hd with h | h | h
  · exact ⟨false, by rw [h]; rfl⟩
  · exact ⟨true, by rw [h]; rfl⟩
  · rcases daemonBit_cases s w with hb | hb
    · exact ⟨false, by rw [h, start_inherit_eq, hb]; rfl⟩
    · exact ⟨true, by rw [h, start_inherit_eq, hb]; rfl⟩

theorem daemonBit_stack (s : State) (stk : List TValue) (w : Nat) :
    daemonBit { s with stack := stk } w = daemonBit s w := rfl

/-- One lifecycle call keeps the balance: the activecnt of the loop is the
initial value less the share of the watcher. -/
theorem runCall_keeps_balance (w loop : Nat) (c0 : Int) (c : LifecycleCall) (s : State)
    (hc : onLoop w loop c = true)
    (hinv : s.activecnt loop = c0 - daemonShare s w) :
    ∃ s1, runCall w c s = Except.ok s1 ∧ s1.activecnt loop = c0 - daemonShare s1 w ∧
      (isStop c = true → (s1.wdata w).watcher_ref = LUA_NOREF) := by
  cases c with
  | start stk l loop_i watcher_i is_daemon =>
    simp only [onLoop, Bool.and_eq_true, Bool.or_eq_true, decide_eq_true_eq] at hc
    obtain ⟨⟨hown, hl⟩, hd⟩ := hc
    subst hl
    have hd2 : is_daemon = 0 ∨ is_daemon = 1 ∨ is_daemon = -1 := by
      rcases hd with (h | h) | h
      · exact Or.inl h
      · exact Or.inr (Or.inl h)
      · exact Or.inr (Or.inr h)
    simp only [ownIndex, Bool.and_eq_true, decide_eq_true_eq] at hown
    obtain ⟨⟨⟨hwi, hw⟩, hli⟩, hlh⟩ := hown
    obtain ⟨d, hmode⟩ := start_mode_explicit { s with stack := stk } l w loop_i watcher_i
      is_daemon hd2
    simp only [runCall, hmode]
    by_cases href : (s.wdata w).watcher_ref = LUA_NOREF
    · cases hlv : stackAt stk loop_i with
      | userdata lh =>
        obtain ⟨s1, h1, hne, _, _, _, _, hcnt, _, hbit⟩ :=
          start_stopped_effect { s with stack := stk } l w loop_i watcher_i lh d
            hwi hli hw hlv href
        refine ⟨s1, h1, ?_, fun h => by simp [isStop] at h⟩
        have hshare : daemonShare s w = 0 := by simp [daemonShare, href]
        have hcnt2 : s1.activecnt l = s.activecnt l - modeOf d := hcnt
        have hshare1 : daemonShare s1 w = modeOf d := by
          cases d <;> simp [daemonShare, hne, hbit, modeOf]
        rw [hcnt2, hshare1, hinv, hshare]
        ring
      | _ => simp [hlv, isUserdata] at hlh
    · obtain ⟨s1, h1, hcnt, hbit, hr, _⟩ :=
        start_started_effect { s with stack := stk } l w loop_i watcher_i d href
      refine ⟨s1, h1, ?_, fun h => by simp [isStop] at h⟩
      have href1 : (s1.wdata w).watcher_ref ≠ LUA_NOREF := by rw [hr]; exact href
      have hshare : daemonShare s w = daemonBit s w := by
        rcases daemonBit_cases s w with hb | hb <;> simp [daemonShare, href, hb]
      have hshare1 : daemonShare s1 w = modeOf d := by
        cases d <;> simp [daemonShare, href1, hbit, modeOf]
      have hcnt2 : s1.activecnt l = s.activecnt l + (daemonBit s w - modeOf d) := hcnt
      rw [hcnt2, hshare1, hinv, hshare]
      ring
  | stop stk l watcher_i =>
    simp only [onLoop, Bool.and_eq_true, decide_eq_true_eq] at hc
    obtain ⟨hown, hl⟩ := hc
    subst hl
    simp only [ownIndex, Bool.and_eq_true, decide_eq_true_eq] at hown
    obtain ⟨hwi, hw⟩ := hown
    simp only [runCall]
    by_cases href : (s.wdata w).watcher_ref = LUA_NOREF
    · exact ⟨_, stop_stopped { s with stack := stk } l w watcher_i href, hinv,
        fun _ => href⟩
    · refine ⟨_, stop_started { s with stack := stk } l w watcher_i w hwi hw href, ?_,
        fun _ => by simp⟩
      have hshare : daemonShare s w = daemonBit s w := by
        rcases daemonBit_cases s w with hb | hb <;> simp [daemonShare, href, hb]
      rw [hshare] at hinv
      rcases Nat.mod_two_eq_zero_or_one (s.wdata w).flags with h | h <;>
      simp [daemonShare, daemonBit, WATCHER_FLAG_IS_DAEMON, h] at hinv ⊢ <;>
      omega

theorem runCalls_keep_balance (w loop : Nat) (c0 : Int) (cs : List LifecycleCall) :
    ∀ s : State, (∀ c ∈ cs, onLoop w loop c = true) →
      s.activecnt loop = c0 - daemonShare s w →
      ∃ s1, runCalls w cs s = Except.ok s1 ∧ s1.activecnt loop = c0 - daemonShare s1 w ∧
        (∀ c, cs.getLast? = some c → isStop c = true →
          (s1.wdata w).watcher_ref = LUA_NOREF) := by
  induction cs with
  | nil =>
    intro s _ hinv
    exact ⟨s, rfl, hinv, fun c h => by simp at h⟩
  | cons c cs ih =>
    intro s hcs hinv
    obtain ⟨s2, h2, hinv2, hstop2⟩ :=
      runCall_keeps_balance w loop c0 c s (hcs c (List.mem_cons_self c cs)) hinv
    obtain ⟨s1, h1, hinv1, hstop1⟩ :=
      ih s2 (fun x hx => hcs x (List.mem_cons_of_mem c hx)) hinv2
    refine ⟨s1, by simp [runCalls, h2, h1], hinv1, ?_⟩
    intro x hx hsx
    cases cs with
    | nil =>
      simp at hx
      subst hx
      simp only [runCalls] at h1
      injection h1 with h1
      subst h1
      exact hstop2 hsx
    | cons y ys =>
      rw [List.getLast?_cons_cons] at hx
      exact hstop1 x hx hsx

/-- C19: from a state in which the watcher holds no reference, every finite
sequence of loop_start_watcher calls, with mode 0, 1 or -1, and
loop_stop_watcher calls on the watcher and one loop succeeds, and in the state
it reaches the activecnt of the loop is the initial value less 1 when the
watcher holds a reference and IS_DAEMON is set, and the initial value
otherwise; after a sequence that ends with a stop it is the initial value. -/
theorem keepalive_counter_is_balanced (s0 : State) (w loop : Nat) (cs : List LifecycleCall)
    (hstopped : (s0.wdata w).watcher_ref = LUA_NOREF)
    (hcs : ∀ c ∈ cs, onLoop w loop c = true) :
    ∃ s1, runCalls w cs s0 = Except.ok s1 ∧
      ((s1.wdata w).watcher_ref ≠ LUA_NOREF ∧ daemonBit s1 w = 1 →
        s1.activecnt loop = s0.activecnt loop - 1) ∧
      (¬ ((s1.wdata w).watcher_ref ≠ LUA_NOREF ∧ daemonBit s1 w = 1) →
        s1.activecnt loop = s0.activecnt loop) ∧
      (∀ c, cs.getLast? = some c → isStop c = true →
        s1.activecnt loop = s0.activecnt loop) := by
  have hinv0 : s0.activecnt loop = s0.activecnt loop - daemonShare s0 w := by
    simp [daemonShare, hstopped]
  obtain ⟨s1, h1, hinv1, hstop1⟩ :=
    runCalls_keep_balance w loop (s0.activecnt loop) cs s0 hcs hinv0
  refine ⟨s1, h1, ?_, ?_, ?_⟩
  · intro h
    rw [hinv1]
    simp [daemonShare, h.1, h.2]
  · intro h
    rw [hinv1]
    have : daemonShare s1 w = 0 := by
      unfold daemonShare
      rw [if_neg h]
    rw [this]
    ring
  · intro c hc hs
    rw [hinv1]
    simp [daemonShare, hstop1 c hc hs]

theorem keepalive_counter_is_balanced_witness :
    ∃ s1, runCalls 20
        [LifecycleCall.start exState.stack 5 2 1 1,
         LifecycleCall.stop exState.stack 5 1,
         LifecycleCall.start exState.stack 5 2 1 (-1),
         LifecycleCall.start exState.stack 5 2 1 0,
         LifecycleCall.stop exState.stack 5 1] exState = Except.ok s1 ∧
      ((s1.wdata 20).watcher_ref ≠ LUA_NOREF ∧ daemonBit s1 20 = 1 →
        s1.activecnt 5 = exState.activecnt 5 - 1) ∧
      (¬ ((s1.wdata 20).watcher_ref ≠ LUA_NOREF ∧ daemonBit s1 20 = 1) →
        s1.activecnt 5 = exState.activecnt 5) ∧
      (∀ c,
        [LifecycleCall.start exState.stack 5 2 1 1,
         LifecycleCall.stop exState.stack 5 1,
         LifecycleCall.start exState.stack 5 2 1 (-1),
         LifecycleCall.start exState.stack 5 2 1 0,
         LifecycleCall.stop exState.stack 5 1].getLast? = some c → isStop c = true →
        s1.activecnt 5 = exState.activecnt 5) :=
  keepalive_counter_is_balanced exState 20 5 _ (by decide) (by decide)


end LuaEv
